import Mathlib

/-!
Shallow embedding of the ShopTrack Pro inventory and order subsystem:
the Postgres schema (tables, CHECK constraints, row-level-security
policies and triggers) from supabase/migrations together with the
client-side handlers in src/pages and src/contexts that drive it.

Conventions of the embedding:

* Each table is a list of rows; identifiers are natural numbers.
* A client-level table operation takes the acting user and returns
  `Option DB`: `none` models a statement error (a CHECK or foreign-key
  violation, or a row-level-security rejection of an INSERT).
  Row-level security on UPDATE and DELETE silently filters rows, as
  PostgREST does, so a denied update or delete returns `some` of the
  unchanged database and no error.
* AFTER ROW triggers run inside the triggering statement: a failure in
  the trigger body aborts the whole statement.
* Client handlers that ignore the result of a call keep the previous
  database state when that call errors (`tryOp`).
* Money columns, timestamps, product metadata other than stock,
  discount and category, and the audit_logs table are not modelled: no
  claim under study mentions them.  The change_type CHECK of the
  initial migration lists three values while the later trigger
  migrations insert cart_reserved, cart_released and return rows; the
  embedding uses the six-value domain those triggers and the generated
  client types rely on.
-/

abbrev UserId := Nat
abbrev ProductId := Nat
abbrev OrderId := Nat
abbrev ReturnId := Nat

/-- A row of public.products (migration 20251011180840, extended by
later migrations with discount_percentage); only the columns the claims
mention are kept.  CHECK (stock >= 0) is enforced by the operations
below. -/
structure Product where
  id : ProductId
  stock : Int
  discount_percentage : Int
  category_id : Option Nat
  deriving DecidableEq

/-- A row of public.cart_items (migration 20251024143129):
UNIQUE(user_id, product_id), CHECK (quantity > 0). -/
structure CartItem where
  user_id : UserId
  product_id : ProductId
  quantity : Int
  deriving DecidableEq

/-- A row of public.orders (status, totals and notes omitted). -/
structure Order where
  id : OrderId
  user_id : UserId
  deriving DecidableEq

/-- A row of public.order_items (price column omitted);
CHECK (quantity > 0). -/
structure OrderItem where
  order_id : OrderId
  product_id : ProductId
  quantity : Int
  deriving DecidableEq

/-- A row of public.payments (amount, mode and status omitted). -/
structure Payment where
  order_id : OrderId
  deriving DecidableEq

/-- The status CHECK of public.returns. -/
inductive ReturnStatus
  | pending
  | approved
  | rejected
  | restocked
  deriving DecidableEq

/-- A row of public.returns; CHECK (quantity > 0). -/
structure ReturnRow where
  id : ReturnId
  order_id : OrderId
  product_id : ProductId
  quantity : Int
  status : ReturnStatus
  deriving DecidableEq

/-- The change_type values the triggers and the client insert into
public.inventory_logs ('return' is written `ret`). -/
inductive ChangeType
  | sale
  | ret
  | restock
  | adjustment
  | cart_reserved
  | cart_released
  deriving DecidableEq

/-- A row of public.inventory_logs: signed quantity delta per product. -/
structure InventoryLog where
  product_id : ProductId
  quantity : Int
  change_type : ChangeType
  deriving DecidableEq

/-- public.app_role. -/
inductive Role
  | admin
  | customer
  deriving DecidableEq

/-- A row of public.user_roles: UNIQUE(user_id, role). -/
structure UserRole where
  user_id : UserId
  role : Role
  deriving DecidableEq

/-- A row of public.profiles (email omitted). -/
structure Profile where
  id : UserId
  deriving DecidableEq

/-- The database state: one list per table. -/
structure DB where
  products : List Product
  cart_items : List CartItem
  orders : List Order
  order_items : List OrderItem
  payments : List Payment
  returns : List ReturnRow
  inventory_logs : List InventoryLog
  user_roles : List UserRole
  profiles : List Profile
  deriving DecidableEq

/-- public.has_role(_user_id, _role): EXISTS (SELECT 1 FROM user_roles
WHERE user_id = _user_id AND role = _role). -/
def has_role (db : DB) (u : UserId) (r : Role) : Bool :=
  db.user_roles.any (fun ur => ur.user_id == u && ur.role == r)

/-- Shorthand for has_role(uid, 'admin'), the predicate every
admin-gated policy uses. -/
def isAdmin (db : DB) (u : UserId) : Bool :=
  has_role db u Role.admin

/-- SELECT * FROM products WHERE id = pid (first match). -/
def findProduct (db : DB) (pid : ProductId) : Option Product :=
  db.products.find? (fun p => p.id == pid)

/-- SELECT stock FROM products WHERE id = pid. -/
def stockOf (db : DB) (pid : ProductId) : Option Int :=
  (findProduct db pid).map Product.stock

/-- UPDATE products SET stock = s WHERE id = pid, on the row list. -/
def setStockList (ps : List Product) (pid : ProductId) (s : Int) : List Product :=
  ps.map (fun p => if p.id == pid then { p with stock := s } else p)

/-- Sum of inventory_logs.quantity over the rows of one product. -/
def logSum (logs : List InventoryLog) (pid : ProductId) : Int :=
  ((logs.filter (fun e => e.product_id == pid)).map InventoryLog.quantity).sum

/-- The body every stock-affecting trigger shares: UPDATE products SET
stock = stock + delta WHERE id = pid followed by one INSERT INTO
inventory_logs.  It fails, aborting the triggering statement, when the
new stock violates CHECK (stock >= 0) or, if the product row is
missing, when the log insert violates its foreign key. -/
def applyStockDelta (db : DB) (pid : ProductId) (delta : Int) (ct : ChangeType) : Option DB :=
  match stockOf db pid with
  | none => none
  | some s =>
    if s + delta < 0 then none
    else some { db with
      products := setStockList db.products pid (s + delta),
      inventory_logs := db.inventory_logs ++ [⟨pid, delta, ct⟩] }

/-- Ignore the outcome of a database call, as the client does when it
neither checks nor destructures the returned error. -/
def tryOp (db : DB) (r : Option DB) : DB :=
  r.getD db

/-! ### Row-level-security policies

Each policy is a boolean predicate over the acting user and the row it
would touch, translated from the CREATE POLICY statements of the
migrations.  An action with no policy on its table defaults to deny. -/

/-- Owner of an order, used by the EXISTS subqueries of the
order_items, returns and payments policies. -/
def orderOwner (db : DB) (oid : OrderId) : Option UserId :=
  (db.orders.find? (fun o => o.id == oid)).map Order.user_id

/-- Policy "Users can view their own cart items": auth.uid() = user_id. -/
def canSelectCartItem (_db : DB) (a : UserId) (c : CartItem) : Bool :=
  a == c.user_id

/-- Policy "Users can insert their own cart items": auth.uid() = user_id. -/
def canInsertCartItem (_db : DB) (a : UserId) (c : CartItem) : Bool :=
  a == c.user_id

/-- Policy "Users can update their own cart items": auth.uid() = user_id. -/
def canUpdateCartItem (_db : DB) (a : UserId) (c : CartItem) : Bool :=
  a == c.user_id

/-- Policy "Users can delete their own cart items": auth.uid() = user_id. -/
def canDeleteCartItem (_db : DB) (a : UserId) (c : CartItem) : Bool :=
  a == c.user_id

/-- Policy "Users can view their own orders": auth.uid() = user_id OR
has_role(auth.uid(), 'admin'). -/
def canSelectOrder (db : DB) (a : UserId) (o : Order) : Bool :=
  a == o.user_id || isAdmin db a

/-- Policy "Users can create their own orders": auth.uid() = user_id. -/
def canInsertOrder (_db : DB) (a : UserId) (o : Order) : Bool :=
  a == o.user_id

/-- Policy "Only admins can update orders". -/
def canUpdateOrder (db : DB) (a : UserId) (_o : Order) : Bool :=
  isAdmin db a

/-- No DELETE policy exists on orders, so every delete is denied. -/
def canDeleteOrder (_db : DB) (_a : UserId) (_o : Order) : Bool :=
  false

/-- Policy "Users can view their order items": the parent order belongs
to the actor, or the actor is an admin. -/
def canSelectOrderItem (db : DB) (a : UserId) (oi : OrderItem) : Bool :=
  orderOwner db oi.order_id == some a || isAdmin db a

/-- Policy "Users can create order items for their orders": the parent
order belongs to the actor. -/
def canInsertOrderItem (db : DB) (a : UserId) (oi : OrderItem) : Bool :=
  orderOwner db oi.order_id == some a

/-- No UPDATE policy exists on order_items. -/
def canUpdateOrderItem (_db : DB) (_a : UserId) (_oi : OrderItem) : Bool :=
  false

/-- No DELETE policy exists on order_items. -/
def canDeleteOrderItem (_db : DB) (_a : UserId) (_oi : OrderItem) : Bool :=
  false

/-- Policy "Users can view their own returns": the parent order belongs
to the actor, or the actor is an admin. -/
def canSelectReturn (db : DB) (a : UserId) (r : ReturnRow) : Bool :=
  orderOwner db r.order_id == some a || isAdmin db a

/-- Policy "Users can create returns for their orders": the parent
order belongs to the actor. -/
def canInsertReturn (db : DB) (a : UserId) (r : ReturnRow) : Bool :=
  orderOwner db r.order_id == some a

/-- Policy "Only admins can update returns". -/
def canUpdateReturn (db : DB) (a : UserId) (_r : ReturnRow) : Bool :=
  isAdmin db a

/-- No DELETE policy exists on returns. -/
def canDeleteReturn (_db : DB) (_a : UserId) (_r : ReturnRow) : Bool :=
  false

/-- Policy "Only admins can insert payments". -/
def canInsertPayment (db : DB) (a : UserId) (_pm : Payment) : Bool :=
  isAdmin db a

/-- Policy "Only admins can insert inventory logs". -/
def canInsertInventoryLog (db : DB) (a : UserId) : Bool :=
  isAdmin db a

/-! ### Client-level table operations -/

/-- SELECT * FROM cart_items WHERE user_id = u AND product_id = pid. -/
def findCartItem (db : DB) (u : UserId) (pid : ProductId) : Option CartItem :=
  db.cart_items.find? (fun c => c.user_id == u && c.product_id == pid)

/-- INSERT INTO cart_items issued by the client, running the INSERT
branch of update_stock_on_cart_change afterwards: reserve stock
(stock - quantity) and log (-quantity, 'cart_reserved').  Errors:
RLS insert rejection, CHECK (quantity > 0), the UNIQUE(user_id,
product_id) key, or a trigger failure. -/
def insertCartItem (db : DB) (actor : UserId) (row : CartItem) : Option DB :=
  if canInsertCartItem db actor row && row.quantity > 0
      && (findCartItem db row.user_id row.product_id).isNone then
    applyStockDelta { db with cart_items := db.cart_items ++ [row] }
      row.product_id (-row.quantity) ChangeType.cart_reserved
  else none

/-- UPDATE cart_items SET quantity = q WHERE user_id = u AND
product_id = pid issued by the client, running the UPDATE branch of
update_stock_on_cart_change on the matched row: stock changes by
(old - new) and one cart_reserved or cart_released row is logged when
the quantity actually changes.  A row filtered out by row-level
security, or no matching row, means nothing happens and no error. -/
def updateCartQty (db : DB) (actor u : UserId) (pid : ProductId) (q : Int) : Option DB :=
  match findCartItem db u pid with
  | none => some db
  | some old =>
    if canUpdateCartItem db actor old then
      if q ≤ 0 then none
      else
        let db1 := { db with cart_items := db.cart_items.map (fun c =>
          if c.user_id == u && c.product_id == pid then { c with quantity := q } else c) }
        if q == old.quantity then some db1
        else applyStockDelta db1 pid (old.quantity - q)
          (if old.quantity < q then ChangeType.cart_reserved else ChangeType.cart_released)
    else some db

/-- DELETE FROM cart_items WHERE user_id = u AND product_id = pid
issued by the client, running the DELETE branch of
update_stock_on_cart_change on the removed row: release the reserved
stock (stock + quantity) and log (+quantity, 'cart_released'). -/
def deleteCartItem (db : DB) (actor u : UserId) (pid : ProductId) : Option DB :=
  match findCartItem db u pid with
  | none => some db
  | some old =>
    if canDeleteCartItem db actor old then
      applyStockDelta
        { db with cart_items := db.cart_items.filter (fun c =>
            !(c.user_id == u && c.product_id == pid)) }
        pid old.quantity ChangeType.cart_released
    else some db

/-- INSERT INTO orders issued by the client. -/
def insertOrder (db : DB) (actor : UserId) (row : Order) : Option DB :=
  if canInsertOrder db actor row then
    some { db with orders := db.orders ++ [row] }
  else none

/-- INSERT INTO order_items issued by the client, running
trg_update_stock_on_order (update_stock_on_order) afterwards: stock is
reduced by the quantity and one (-quantity, 'sale') row is logged.
Errors: RLS rejection, CHECK (quantity > 0), the product foreign key,
or a trigger failure. -/
def insertOrderItem (db : DB) (actor : UserId) (row : OrderItem) : Option DB :=
  if canInsertOrderItem db actor row && row.quantity > 0
      && (findProduct db row.product_id).isSome then
    applyStockDelta { db with order_items := db.order_items ++ [row] }
      row.product_id (-row.quantity) ChangeType.sale
  else none

/-- UPDATE products SET stock = v WHERE id = pid issued directly by the
client.  Row-level security admits only admins, and a denied update
silently matches no rows; CHECK (stock >= 0) rejects a negative value.
The audit trigger on products writes audit_logs, which is not
modelled. -/
def updateProductStock (db : DB) (actor : UserId) (pid : ProductId) (v : Int) : Option DB :=
  if isAdmin db actor then
    match findProduct db pid with
    | none => some db
    | some _ =>
      if v < 0 then none
      else some { db with products := setStockList db.products pid v }
  else some db

/-- INSERT INTO inventory_logs issued by the client.  Policy: only
admins; the product foreign key must also hold. -/
def insertInventoryLog (db : DB) (actor : UserId) (pid : ProductId) (q : Int)
    (ct : ChangeType) : Option DB :=
  if canInsertInventoryLog db actor && (findProduct db pid).isSome then
    some { db with inventory_logs := db.inventory_logs ++ [⟨pid, q, ct⟩] }
  else none

/-- INSERT INTO payments issued by the client. -/
def insertPayment (db : DB) (actor : UserId) (row : Payment) : Option DB :=
  if canInsertPayment db actor row then
    some { db with payments := db.payments ++ [row] }
  else none

/-- SELECT * FROM returns WHERE id = rid (first match). -/
def findReturn (db : DB) (rid : ReturnId) : Option ReturnRow :=
  db.returns.find? (fun r => r.id == rid)

/-- UPDATE returns SET status = st WHERE id = rid issued by the client,
running trg_restock_on_return (restock_on_return) afterwards: when the
row is updated to 'restocked' from a different previous status, stock
is incremented by the return quantity and one (+quantity, 'return')
row is logged, atomically with the update.  Row-level security admits
only admins; a denied or unmatched update silently changes nothing. -/
def updateReturnStatus (db : DB) (actor : UserId) (rid : ReturnId) (st : ReturnStatus) : Option DB :=
  match findReturn db rid with
  | none => some db
  | some old =>
    if canUpdateReturn db actor old then
      let db1 := { db with returns := db.returns.map (fun r =>
        if r.id == rid then { r with status := st } else r) }
      if st == ReturnStatus.restocked && old.status != ReturnStatus.restocked then
        applyStockDelta db1 old.product_id old.quantity ChangeType.ret
      else some db1
    else some db

/-! ### Client-side handlers -/

/-- addToCart from src/contexts/CartContext.tsx: update the existing
cart line to quantity + 1, or insert a new line with quantity 1; an
error only produces a toast, leaving the state as it was. -/
def addToCart (db : DB) (u : UserId) (pid : ProductId) : DB :=
  match findCartItem db u pid with
  | some existing => tryOp db (updateCartQty db u u pid (existing.quantity + 1))
  | none => tryOp db (insertCartItem db u ⟨u, pid, 1⟩)

/-- removeFromCart from src/contexts/CartContext.tsx. -/
def removeFromCart (db : DB) (u : UserId) (pid : ProductId) : DB :=
  tryOp db (deleteCartItem db u u pid)

/-- updateQuantity from src/contexts/CartContext.tsx: a quantity below
1 removes the line, otherwise the line is updated. -/
def updateQuantity (db : DB) (u : UserId) (pid : ProductId) (q : Int) : DB :=
  if q < 1 then removeFromCart db u pid
  else tryOp db (updateCartQty db u u pid q)

/-- The per-row DELETE trigger effects of one multi-row cart delete, in
row order; any failure aborts the whole statement. -/
def releaseRows (db : DB) : List CartItem → Option DB
  | [] => some db
  | c :: rest => do
    let db1 ← applyStockDelta db c.product_id c.quantity ChangeType.cart_released
    releaseRows db1 rest

/-- DELETE FROM cart_items WHERE user_id = u: one statement whose
per-row AFTER DELETE triggers all run inside it. -/
def deleteUserCart (db : DB) (u : UserId) : Option DB :=
  releaseRows { db with cart_items := db.cart_items.filter (fun c => !(c.user_id == u)) }
    (db.cart_items.filter (fun c => c.user_id == u))

/-- clearCart from src/contexts/CartContext.tsx: delete every cart
line of the user; an error is only logged to the console. -/
def clearCart (db : DB) (u : UserId) : DB :=
  tryOp db (deleteUserCart db u)

/-- One sale log row as the checkout loop records it for a line. -/
def saleEntry (it : ProductId × Int) : InventoryLog :=
  ⟨it.1, -it.2, ChangeType.sale⟩

/-- One cart_released log row as the cart DELETE trigger records it. -/
def releasedEntry (c : CartItem) : InventoryLog :=
  ⟨c.product_id, c.quantity, ChangeType.cart_released⟩

/-- The per-line loop of handleCheckout in src/pages/Checkout.tsx:
insert the order item (firing the sale trigger), read the current
stock, write stock - quantity directly, and insert a sale log row
whose result is ignored.  The first checked error stops the loop,
keeping the effects already applied. -/
def processItems (u : UserId) (oid : OrderId) : DB → List (ProductId × Int) → DB × Bool
  | db, [] => (db, true)
  | db, (pid, q) :: rest =>
    match insertOrderItem db u ⟨oid, pid, q⟩ with
    | none => (db, false)
    | some db1 =>
      match stockOf db1 pid with
      | none => (db1, false)
      | some s =>
        match updateProductStock db1 u pid (s - q) with
        | none => (db1, false)
        | some db2 =>
          processItems u oid (tryOp db2 (insertInventoryLog db2 u pid (-q) ChangeType.sale)) rest

/-- Identifier for the order a checkout creates. -/
def freshOrderId (db : DB) : OrderId :=
  db.orders.foldr (fun o m => max o.id m) 0 + 1

/-- handleCheckout from src/pages/Checkout.tsx over the client's cart
snapshot `items`: insert the order, process every line, insert the
payment row ignoring its result, then clear the cart.  There is no
enclosing transaction: a checked error aborts only the remaining
steps.  The boolean is the reported outcome (order confirmation vs
failure toast). -/
def handleCheckout (db : DB) (u : UserId) (items : List (ProductId × Int)) : DB × Bool :=
  match insertOrder db u ⟨freshOrderId db, u⟩ with
  | none => (db, false)
  | some db1 =>
    match processItems u (freshOrderId db) db1 items with
    | (db2, false) => (db2, false)
    | (db2, true) =>
      let db3 := tryOp db2 (insertPayment db2 u ⟨freshOrderId db⟩)
      (clearCart db3 u, true)

/-- handleReturnAction from src/pages/Dashboard.tsx: update the return
status (firing the restock trigger), and when the action is
'restocked' additionally read the stock, write stock + quantity and
insert a (+quantity, 'return') log row, with every result ignored. -/
def handleReturnAction (db : DB) (actor : UserId) (rid : ReturnId) (pid : ProductId)
    (q : Int) (st : ReturnStatus) : DB :=
  let db1 := tryOp db (updateReturnStatus db actor rid st)
  if st == ReturnStatus.restocked then
    match stockOf db1 pid with
    | none => db1
    | some s =>
      let db2 := tryOp db1 (updateProductStock db1 actor pid (s + q))
      tryOp db2 (insertInventoryLog db2 actor pid q ChangeType.ret)
  else db1

/-- The stock field of the edit branch of handleSaveProduct in
src/pages/Dashboard.tsx: the submitted stock value is written directly
to the product row and no inventory log row is recorded; the zod
schema rejects values outside 0..1000000 before the update is sent. -/
def adminEditStock (db : DB) (actor : UserId) (pid : ProductId) (v : Int) : DB :=
  if v < 0 || v > 1000000 then db
  else tryOp db (updateProductStock db actor pid v)

/-- handle_new_user (migration 20251011183756): on a new auth user,
insert the profile row and one 'customer' row into user_roles. -/
def handle_new_user (db : DB) (u : UserId) : DB :=
  { db with
    profiles := db.profiles ++ [⟨u⟩],
    user_roles := db.user_roles ++ [⟨u, Role.customer⟩] }

/-- Role rows of one user. -/
def rolesOf (db : DB) (u : UserId) : List UserRole :=
  db.user_roles.filter (fun ur => ur.user_id == u)

/-- Outcome of a raw stock adjustment. -/
inductive AdjustResult
  | ok (db : DB) (newStock : Int)
  | notFound
  | stockCheckViolation
  deriving DecidableEq

/-- The generic stock adjustment, UPDATE products SET stock = stock +
delta WHERE id = pid, as the schema constrains it: CHECK (stock >= 0)
from migration 20251011180840 rejects any result below zero. -/
def adjustStock (db : DB) (pid : ProductId) (delta : Int) : AdjustResult :=
  match findProduct db pid with
  | none => AdjustResult.notFound
  | some p =>
    if p.stock + delta < 0 then AdjustResult.stockCheckViolation
    else AdjustResult.ok
      { db with products := setStockList db.products pid (p.stock + delta) }
      (p.stock + delta)

/-- Outcome of calling the bulk_update_discount stored procedure. -/
inductive BulkResult
  | ok (db : DB) (affected : Nat)
  | denied
  | checkViolation
  deriving DecidableEq

/-- bulk_update_discount(p_category_id, p_discount) from migration
20251020073709: a SECURITY DEFINER function granted to every
authenticated user, with no role check in its body, so it bypasses the
admin-only row-level security on products; it sets the discount of
every product of the category and returns the affected row count.  The
discount CHECK (0..100) rejects an out-of-range value whenever a row
is updated. -/
def bulk_update_discount (db : DB) (actor : Option UserId) (cat : Nat) (d : Int) : BulkResult :=
  match actor with
  | none => BulkResult.denied
  | some _ =>
    if db.products.any (fun p => p.category_id == some cat) && (d < 0 || d > 100) then
      BulkResult.checkViolation
    else BulkResult.ok
      { db with products := db.products.map (fun p =>
          if p.category_id == some cat then { p with discount_percentage := d } else p) }
      (db.products.filter (fun p => p.category_id == some cat)).length

/-! ### The operation alphabet of the reconciliation claim -/

/-- The operations named by the reconciliation invariant: add to cart,
change cart quantity, remove from cart, checkout, transition a return,
admin stock edit; each carries its acting user. -/
inductive Op
  | opAddToCart (actor : UserId) (pid : ProductId)
  | opUpdateQuantity (actor : UserId) (pid : ProductId) (q : Int)
  | opRemoveFromCart (actor : UserId) (pid : ProductId)
  | opCheckout (actor : UserId) (items : List (ProductId × Int))
  | opReturnTransition (actor : UserId) (rid : ReturnId) (st : ReturnStatus)
  | opAdminEditStock (actor : UserId) (pid : ProductId) (v : Int)
  deriving DecidableEq

/-- Whether an operation is the direct admin stock edit. -/
def isStockEdit : Op → Bool
  | Op.opAdminEditStock _ _ _ => true
  | _ => false

/-- Interpretation of one operation by the corresponding handler.  The
return transition reads the product and quantity off the targeted
return row, as the dashboard does. -/
def applyOp (db : DB) : Op → DB
  | Op.opAddToCart a pid => addToCart db a pid
  | Op.opUpdateQuantity a pid q => updateQuantity db a pid q
  | Op.opRemoveFromCart a pid => removeFromCart db a pid
  | Op.opCheckout a items => (handleCheckout db a items).1
  | Op.opReturnTransition a rid st =>
    match findReturn db rid with
    | none => db
    | some r => handleReturnAction db a rid r.product_id r.quantity st
  | Op.opAdminEditStock a pid v => adminEditStock db a pid v

/-! ### Invariants -/

/-- The reconciliation property: every product's stock equals its
initial stock plus the signed sum of its inventory-log deltas. -/
def Recon (init : ProductId → Int) (db : DB) : Prop :=
  ∀ p ∈ db.products, p.stock = init p.id + logSum db.inventory_logs p.id

/-- Well-formedness facts the schema guarantees and the proofs use:
product ids are key-unique, every stock satisfies its CHECK
(stock >= 0), and every return quantity satisfies CHECK
(quantity > 0). -/
def WF (db : DB) : Prop :=
  (db.products.map Product.id).Nodup ∧
  (∀ p ∈ db.products, 0 ≤ p.stock) ∧
  (∀ r ∈ db.returns, 1 ≤ r.quantity)

instance (init : ProductId → Int) (db : DB) : Decidable (Recon init db) := by
  unfold Recon
  infer_instance

instance (db : DB) : Decidable (WF db) := by
  unfold WF
  exact instDecidableAnd

/-- Total quantity a checkout snapshot carries for one product. -/
def itemsQty (items : List (ProductId × Int)) (pid : ProductId) : Int :=
  ((items.filter (fun it => it.1 == pid)).map (fun it => it.2)).sum

/-- Total quantity a list of cart rows reserves for one product. -/
def cartQty (rows : List CartItem) (pid : ProductId) : Int :=
  ((rows.filter (fun c => c.product_id == pid)).map CartItem.quantity).sum

/-- The "transition a return to restocked" action at the database
level: the returns-table status update together with its
restock_on_return trigger, as an admin dashboard issues it (the call
site does not check the result). -/
def restockTransition (db : DB) (a : UserId) (rid : ReturnId) : DB :=
  tryOp db (updateReturnStatus db a rid ReturnStatus.restocked)

/-! ### Concrete states used to evaluate the theorems

User 9 is an admin, users 3, 4 and 7 are customers. -/

/-- A store with one product (id 1, stock 10), an admin and a customer. -/
def dbOneProduct : DB :=
  { products := [⟨1, 10, 0, none⟩], cart_items := [], orders := [], order_items := [],
    payments := [], returns := [], inventory_logs := [],
    user_roles := [⟨9, Role.admin⟩, ⟨3, Role.customer⟩], profiles := [⟨9⟩, ⟨3⟩] }

/-- Initial stock assignment matching dbOneProduct with an empty log. -/
def initTen : ProductId → Int := fun _ => 10

/-- A short scenario: the customer reserves, releases and checks out. -/
def opsScenario : List Op :=
  [Op.opAddToCart 3 1, Op.opUpdateQuantity 3 1 3, Op.opRemoveFromCart 3 1,
   Op.opCheckout 3 [(1, 2)]]

/-- A store where product 2 does not exist: checking out a stale cart
snapshot that still lists product 2 fails at the second line. -/
def dbStaleSnapshot : DB :=
  { products := [⟨1, 5, 0, none⟩], cart_items := [⟨3, 1, 1⟩], orders := [],
    order_items := [], payments := [], returns := [], inventory_logs := [],
    user_roles := [⟨3, Role.customer⟩], profiles := [⟨3⟩] }

/-- A store whose admin has personally filled a cart. -/
def dbAdminShopper : DB :=
  { products := [⟨1, 5, 0, none⟩], cart_items := [⟨9, 1, 1⟩], orders := [], order_items := [],
    payments := [], returns := [], inventory_logs := [],
    user_roles := [⟨9, Role.admin⟩], profiles := [⟨9⟩] }

/-- A store with a customer cart ready for checkout. -/
def dbCustomerCart : DB :=
  { products := [⟨1, 5, 0, none⟩], cart_items := [⟨3, 1, 2⟩], orders := [], order_items := [],
    payments := [], returns := [], inventory_logs := [],
    user_roles := [⟨3, Role.customer⟩], profiles := [⟨3⟩] }

/-- A store with one pending return of 2 units of product 1. -/
def dbPendingReturn : DB :=
  { products := [⟨1, 5, 0, none⟩], cart_items := [], orders := [⟨1, 3⟩], order_items := [],
    payments := [], returns := [⟨1, 1, 1, 2, ReturnStatus.pending⟩], inventory_logs := [],
    user_roles := [⟨9, Role.admin⟩, ⟨3, Role.customer⟩], profiles := [⟨9⟩, ⟨3⟩] }

/-- A store with resources owned by user 4, probed by customer 3. -/
def dbTwoCustomers : DB :=
  { products := [⟨1, 5, 0, none⟩], cart_items := [⟨4, 1, 1⟩], orders := [⟨1, 4⟩],
    order_items := [⟨1, 1, 1⟩], payments := [],
    returns := [⟨1, 1, 1, 1, ReturnStatus.pending⟩], inventory_logs := [],
    user_roles := [⟨3, Role.customer⟩, ⟨4, Role.customer⟩], profiles := [⟨3⟩, ⟨4⟩] }

/-- A store with a sold-out product (stock 0). -/
def dbSoldOut : DB :=
  { products := [⟨1, 0, 0, none⟩], cart_items := [], orders := [], order_items := [],
    payments := [], returns := [], inventory_logs := [],
    user_roles := [⟨9, Role.admin⟩], profiles := [⟨9⟩] }

/-- A store with one discounted category and a plain customer (user 7). -/
def dbDiscountable : DB :=
  { products := [⟨1, 10, 0, some 1⟩, ⟨2, 4, 0, some 2⟩], cart_items := [], orders := [],
    order_items := [], payments := [], returns := [], inventory_logs := [],
    user_roles := [⟨7, Role.customer⟩], profiles := [⟨7⟩] }

/-! ### Basic lemmas about the primitives -/

theorem map_id_setStockList (ps : List Product) (pid : ProductId) (v : Int) :
    (setStockList ps pid v).map Product.id = ps.map Product.id := by
  unfold setStockList
  rw [List.map_map]
  apply List.map_congr_left
  intro p _
  by_cases h : p.id = pid <;> simp [h]

theorem find?_setStockList (ps : List Product) (pid : ProductId) (v : Int) (pid' : ProductId) :
    (setStockList ps pid v).find? (fun p => p.id == pid') =
      (ps.find? (fun p => p.id == pid')).map
        (fun p => if p.id == pid then { p with stock := v } else p) := by
  unfold setStockList
  rw [List.find?_map]
  have hpred : ((fun p : Product => p.id == pid') ∘
      (fun p => if p.id == pid then { p with stock := v } else p)) =
      fun p : Product => p.id == pid' := by
    funext p
    by_cases h : p.id = pid <;> simp [h]
  rw [hpred]

theorem stockOf_map_set (ps : List Product) (pid : ProductId) (v : Int) (pid' : ProductId) :
    ((setStockList ps pid v).find? (fun p => p.id == pid')).map Product.stock =
      (ps.find? (fun p => p.id == pid')).map
        (fun p => if pid' == pid then v else p.stock) := by
  rw [find?_setStockList, Option.map_map]
  cases hfind : ps.find? (fun p => p.id == pid') with
  | none => rfl
  | some p =>
    have hp := List.find?_some hfind
    have hid : p.id = pid' := by simpa using hp
    by_cases h : pid' = pid
    · subst h
      simp [Function.comp, hid]
    · have : ¬ p.id = pid := by rw [hid]; exact h
      simp [Function.comp, this, h]

theorem logSum_append (l1 l2 : List InventoryLog) (pid : ProductId) :
    logSum (l1 ++ l2) pid = logSum l1 pid + logSum l2 pid := by
  simp [logSum]

theorem logSum_single (e : InventoryLog) (pid : ProductId) :
    logSum [e] pid = if e.product_id = pid then e.quantity else 0 := by
  by_cases h : e.product_id = pid <;> simp [logSum, h]

theorem nodup_products_set (db : DB) (pid : ProductId) (v : Int)
    (h : (db.products.map Product.id).Nodup) :
    ((setStockList db.products pid v).map Product.id).Nodup := by
  rw [map_id_setStockList]; exact h

theorem nonneg_products_set (ps : List Product) (pid : ProductId) (v : Int)
    (h : ∀ p ∈ ps, 0 ≤ p.stock) (hv : 0 ≤ v) :
    ∀ p ∈ setStockList ps pid v, 0 ≤ p.stock := by
  intro p' hp'
  unfold setStockList at hp'
  obtain ⟨p, hp, rfl⟩ := List.mem_map.mp hp'
  by_cases h' : p.id == pid <;> simp [h']
  · exact hv
  · exact h p hp

theorem find?_stock_eq (ps : List Product) (pid : ProductId) (p : Product)
    (hn : (ps.map Product.id).Nodup) (hp : p ∈ ps) (hid : p.id = pid) :
    ps.find? (fun q => q.id == pid) = some p := by
  cases hfind : ps.find? (fun q => q.id == pid) with
  | none =>
    exfalso
    have := List.find?_eq_none.mp hfind p hp
    simp [hid] at this
  | some q =>
    have hq := List.find?_some hfind
    have hqmem := List.mem_of_find?_eq_some hfind
    have hqid : q.id = pid := by simpa using hq
    have : q = p := List.inj_on_of_nodup_map hn hqmem hp (by rw [hqid, hid])
    rw [this]

theorem applyStockDelta_some {db : DB} {pid : ProductId} {delta : Int} {ct : ChangeType}
    {db' : DB} (h : applyStockDelta db pid delta ct = some db') :
    ∃ s, stockOf db pid = some s ∧ 0 ≤ s + delta ∧
      db' = { db with
        products := setStockList db.products pid (s + delta),
        inventory_logs := db.inventory_logs ++ [⟨pid, delta, ct⟩] } := by
  unfold applyStockDelta at h
  cases hs : stockOf db pid with
  | none => rw [hs] at h; exact absurd h (by simp)
  | some s =>
    rw [hs] at h
    by_cases hneg : s + delta < 0
    · simp [hneg] at h
    · simp [hneg] at h
      exact ⟨s, rfl, by omega, h.symm⟩

/-- The balanced update shape: setting the stock of `pid` from its
current value `s` to `s + delta` while appending one log row with
quantity `delta` preserves the reconciliation property. -/
theorem recon_shift (init : ProductId → Int) (db : DB) (pid : ProductId) (delta : Int)
    (ct : ChangeType) (s : Int)
    (hn : (db.products.map Product.id).Nodup)
    (hr : Recon init db)
    (hs : stockOf db pid = some s) :
    Recon init { db with
      products := setStockList db.products pid (s + delta),
      inventory_logs := db.inventory_logs ++ [⟨pid, delta, ct⟩] } := by
  intro p' hp'
  simp only at hp'
  unfold setStockList at hp'
  obtain ⟨p, hp, rfl⟩ := List.mem_map.mp hp'
  have hlog : logSum (db.inventory_logs ++ [⟨pid, delta, ct⟩]) p.id
      = logSum db.inventory_logs p.id + (if pid = p.id then delta else 0) := by
    rw [logSum_append, logSum_single]
  by_cases hid : p.id = pid
  · have hfound : db.products.find? (fun q => q.id == pid) = some p :=
      find?_stock_eq db.products pid p hn hp hid
    have hstock : p.stock = s := by
      unfold stockOf findProduct at hs
      rw [hfound] at hs
      simpa using hs
    have hrec := hr p hp
    have hif : (if p.id == pid then { p with stock := s + delta } else p)
        = { p with stock := s + delta } := by simp [hid]
    rw [hif]
    show s + delta = init p.id + logSum (db.inventory_logs ++ [⟨pid, delta, ct⟩]) p.id
    rw [hlog, if_pos hid.symm]
    omega
  · have hif : (if p.id == pid then { p with stock := s + delta } else p) = p := by
      simp [hid]
    rw [hif]
    have hrec := hr p hp
    show p.stock = init p.id + logSum (db.inventory_logs ++ [⟨pid, delta, ct⟩]) p.id
    rw [hlog, if_neg (fun h => hid h.symm)]
    omega

/-- applyStockDelta preserves well-formedness and reconciliation. -/
theorem applyStockDelta_keeps {init : ProductId → Int} {db db' : DB} {pid : ProductId}
    {delta : Int} {ct : ChangeType}
    (hwf : WF db) (hr : Recon init db)
    (h : applyStockDelta db pid delta ct = some db') :
    WF db' ∧ Recon init db' := by
  obtain ⟨s, hs, hpos, rfl⟩ := applyStockDelta_some h
  obtain ⟨hn, hnn, hq⟩ := hwf
  refine ⟨⟨nodup_products_set db pid (s + delta) hn, ?_, ?_⟩, ?_⟩
  · exact nonneg_products_set db.products pid (s + delta) hnn hpos
  · simpa using hq
  · exact recon_shift init db pid delta ct s hn hr hs

theorem tryOp_keeps {init : ProductId → Int} {db : DB} {r : Option DB}
    (h0 : WF db ∧ Recon init db)
    (h : ∀ db', r = some db' → WF db' ∧ Recon init db') :
    WF (tryOp db r) ∧ Recon init (tryOp db r) := by
  cases r with
  | none => simpa [tryOp] using h0
  | some db' => simpa [tryOp] using h db' rfl

theorem insertCartItem_keeps {init : ProductId → Int} {db db' : DB} {a : UserId}
    {row : CartItem} (hwf : WF db) (hr : Recon init db)
    (h : insertCartItem db a row = some db') : WF db' ∧ Recon init db' := by
  unfold insertCartItem at h
  split at h
  · refine applyStockDelta_keeps ?_ ?_ h
    · exact hwf
    · exact hr
  · exact absurd h (by simp)

theorem updateCartQty_keeps {init : ProductId → Int} {db db' : DB} {a u : UserId}
    {pid : ProductId} {q : Int} (hwf : WF db) (hr : Recon init db)
    (h : updateCartQty db a u pid q = some db') : WF db' ∧ Recon init db' := by
  unfold updateCartQty at h
  split at h
  · rw [Option.some_inj] at h
    subst h
    exact ⟨hwf, hr⟩
  · split at h
    · split at h
      · exact absurd h (by simp)
      · split at h
        · rw [Option.some_inj] at h
          subst h
          exact ⟨hwf, hr⟩
        · refine applyStockDelta_keeps ?_ ?_ h
          · exact hwf
          · exact hr
    · rw [Option.some_inj] at h
      subst h
      exact ⟨hwf, hr⟩

theorem deleteCartItem_keeps {init : ProductId → Int} {db db' : DB} {a u : UserId}
    {pid : ProductId} (hwf : WF db) (hr : Recon init db)
    (h : deleteCartItem db a u pid = some db') : WF db' ∧ Recon init db' := by
  unfold deleteCartItem at h
  split at h
  · rw [Option.some_inj] at h
    subst h
    exact ⟨hwf, hr⟩
  · split at h
    · refine applyStockDelta_keeps ?_ ?_ h
      · exact hwf
      · exact hr
    · rw [Option.some_inj] at h
      subst h
      exact ⟨hwf, hr⟩

theorem addToCart_keeps {init : ProductId → Int} {db : DB} {u : UserId} {pid : ProductId}
    (hwf : WF db) (hr : Recon init db) :
    WF (addToCart db u pid) ∧ Recon init (addToCart db u pid) := by
  unfold addToCart
  cases findCartItem db u pid with
  | some existing =>
    exact tryOp_keeps ⟨hwf, hr⟩ (fun db' h => updateCartQty_keeps hwf hr h)
  | none =>
    exact tryOp_keeps ⟨hwf, hr⟩ (fun db' h => insertCartItem_keeps hwf hr h)

theorem removeFromCart_keeps {init : ProductId → Int} {db : DB} {u : UserId} {pid : ProductId}
    (hwf : WF db) (hr : Recon init db) :
    WF (removeFromCart db u pid) ∧ Recon init (removeFromCart db u pid) := by
  unfold removeFromCart
  exact tryOp_keeps ⟨hwf, hr⟩ (fun db' h => deleteCartItem_keeps hwf hr h)

theorem updateQuantity_keeps {init : ProductId → Int} {db : DB} {u : UserId} {pid : ProductId}
    {q : Int} (hwf : WF db) (hr : Recon init db) :
    WF (updateQuantity db u pid q) ∧ Recon init (updateQuantity db u pid q) := by
  unfold updateQuantity
  split
  · exact removeFromCart_keeps hwf hr
  · exact tryOp_keeps ⟨hwf, hr⟩ (fun db' h => updateCartQty_keeps hwf hr h)

theorem insertOrderItem_keeps {init : ProductId → Int} {db db' : DB} {a : UserId}
    {row : OrderItem} (hwf : WF db) (hr : Recon init db)
    (h : insertOrderItem db a row = some db') : WF db' ∧ Recon init db' := by
  unfold insertOrderItem at h
  split at h
  · refine applyStockDelta_keeps ?_ ?_ h
    · exact hwf
    · exact hr
  · exact absurd h (by simp)

theorem updateThenLog_keeps {init : ProductId → Int} {db1 db2 : DB} {u : UserId}
    {pid : ProductId} {v s d : Int} {ct : ChangeType}
    (hwf : WF db1) (hr : Recon init db1)
    (hs : stockOf db1 pid = some s)
    (hd : d = v - s)
    (hup : updateProductStock db1 u pid v = some db2) :
    WF (tryOp db2 (insertInventoryLog db2 u pid d ct)) ∧
      Recon init (tryOp db2 (insertInventoryLog db2 u pid d ct)) := by
  unfold updateProductStock at hup
  by_cases hadmin : isAdmin db1 u
  · rw [if_pos hadmin] at hup
    split at hup
    next hfp =>
      exfalso
      unfold stockOf at hs
      rw [hfp] at hs
      exact absurd hs (by simp)
    next p hfp =>
      split at hup
      · exact absurd hup (by simp)
      · rw [Option.some_inj] at hup
        subst hup
        have hlog : insertInventoryLog { db1 with products := setStockList db1.products pid v }
            u pid d ct = some { db1 with
              products := setStockList db1.products pid v,
              inventory_logs := db1.inventory_logs ++ [⟨pid, d, ct⟩] } := by
          unfold insertInventoryLog canInsertInventoryLog
          have hfp2 : findProduct { db1 with products := setStockList db1.products pid v } pid
              = some (if p.id == pid then { p with stock := v } else p) := by
            unfold findProduct
            rw [find?_setStockList]
            unfold findProduct at hfp
            rw [hfp]
            rfl
          have hadmin2 : isAdmin { db1 with products := setStockList db1.products pid v } u = true := hadmin
          rw [hadmin2, hfp2]
          simp
        rw [hlog]
        have hv : v = s + d := by omega
        constructor
        · obtain ⟨hn, hnn, hq⟩ := hwf
          refine ⟨nodup_products_set db1 pid v hn, ?_, ?_⟩
          · refine nonneg_products_set db1.products pid v hnn ?_
            omega
          · simpa using hq
        · have := recon_shift init db1 pid d ct s (hwf.1) hr hs
          rw [← hv] at this
          exact this
  · rw [if_neg hadmin] at hup
    rw [Option.some_inj] at hup
    subst hup
    have hnolog : insertInventoryLog db1 u pid d ct = none := by
      unfold insertInventoryLog canInsertInventoryLog
      simp [hadmin]
    rw [hnolog]
    exact ⟨hwf, hr⟩

theorem processItems_keeps {init : ProductId → Int} (u : UserId) (oid : OrderId) :
    ∀ (items : List (ProductId × Int)) (db : DB), WF db → Recon init db →
      WF (processItems u oid db items).1 ∧ Recon init (processItems u oid db items).1 := by
  intro items
  induction items with
  | nil =>
    intro db hwf hr
    exact ⟨hwf, hr⟩
  | cons it rest ih =>
    intro db hwf hr
    obtain ⟨pid, q⟩ := it
    cases h1 : insertOrderItem db u ⟨oid, pid, q⟩ with
    | none =>
      simp only [processItems, h1]
      exact ⟨hwf, hr⟩
    | some db1 =>
      obtain ⟨hwf1, hr1⟩ := insertOrderItem_keeps hwf hr h1
      cases h2 : stockOf db1 pid with
      | none =>
        simp only [processItems, h1, h2]
        exact ⟨hwf1, hr1⟩
      | some s =>
        cases h3 : updateProductStock db1 u pid (s - q) with
        | none =>
          simp only [processItems, h1, h2, h3]
          exact ⟨hwf1, hr1⟩
        | some db2 =>
          simp only [processItems, h1, h2, h3]
          have hd : -q = (s - q) - s := by ring
          obtain ⟨hwf3, hr3⟩ := updateThenLog_keeps hwf1 hr1 h2 hd h3
          exact ih _ hwf3 hr3

theorem stockOf_nonneg {db : DB} {pid : ProductId} {s : Int}
    (hwf : WF db) (hs : stockOf db pid = some s) : 0 ≤ s := by
  unfold stockOf findProduct at hs
  cases hfp : db.products.find? (fun p => p.id == pid) with
  | none => rw [hfp] at hs; exact absurd hs (by simp)
  | some p =>
    rw [hfp] at hs
    have hmem := List.mem_of_find?_eq_some hfp
    have := hwf.2.1 p hmem
    simp only [Option.map_some', Option.some.injEq] at hs
    omega

theorem updateProductStock_total {db : DB} {a : UserId} {pid : ProductId} {v : Int}
    (hv : 0 ≤ v) : ∃ db2, updateProductStock db a pid v = some db2 := by
  unfold updateProductStock
  by_cases hadmin : isAdmin db a
  · rw [if_pos hadmin]
    cases findProduct db pid with
    | none => exact ⟨db, rfl⟩
    | some p =>
      rw [if_neg (by omega)]
      exact ⟨_, rfl⟩
  · rw [if_neg hadmin]
    exact ⟨db, rfl⟩

theorem wf_returns_setStatus (db : DB) (rid : ReturnId) (st : ReturnStatus)
    (hwf : WF db) : WF { db with returns := db.returns.map (fun r =>
      if r.id == rid then { r with status := st } else r) } := by
  obtain ⟨hn, hnn, hq⟩ := hwf
  refine ⟨hn, hnn, ?_⟩
  intro x hx
  simp only at hx
  obtain ⟨r0, hr0, rfl⟩ := List.mem_map.mp hx
  by_cases hid : r0.id = rid
  · rw [if_pos (by simpa using hid)]
    exact hq r0 hr0
  · rw [if_neg (by simpa using hid)]
    exact hq r0 hr0

theorem updateReturnStatus_keeps {init : ProductId → Int} {db db' : DB} {a : UserId}
    {rid : ReturnId} {st : ReturnStatus} (hwf : WF db) (hr : Recon init db)
    (h : updateReturnStatus db a rid st = some db') : WF db' ∧ Recon init db' := by
  unfold updateReturnStatus at h
  split at h
  · rw [Option.some_inj] at h
    subst h
    exact ⟨hwf, hr⟩
  next old hfind =>
    split at h
    · split at h
      · refine applyStockDelta_keeps ?_ ?_ h
        · exact wf_returns_setStatus db rid st hwf
        · exact hr
      · rw [Option.some_inj] at h
        subst h
        exact ⟨wf_returns_setStatus db rid st hwf, hr⟩
    · rw [Option.some_inj] at h
      subst h
      exact ⟨hwf, hr⟩

theorem handleReturnAction_keeps {init : ProductId → Int} {db : DB} {a : UserId}
    {rid : ReturnId} {st : ReturnStatus} {r : ReturnRow}
    (hwf : WF db) (hr : Recon init db) (hfind : findReturn db rid = some r) :
    WF (handleReturnAction db a rid r.product_id r.quantity st) ∧
      Recon init (handleReturnAction db a rid r.product_id r.quantity st) := by
  have hq1 : 1 ≤ r.quantity :=
    hwf.2.2 r (List.mem_of_find?_eq_some hfind)
  simp only [handleReturnAction]
  obtain ⟨hwf1, hr1⟩ : WF (tryOp db (updateReturnStatus db a rid st)) ∧
      Recon init (tryOp db (updateReturnStatus db a rid st)) :=
    tryOp_keeps ⟨hwf, hr⟩ (fun db' h => updateReturnStatus_keeps hwf hr h)
  split
  · cases h2 : stockOf (tryOp db (updateReturnStatus db a rid st)) r.product_id with
    | none =>
      simp only [h2]
      exact ⟨hwf1, hr1⟩
    | some s =>
      have hs0 : 0 ≤ s := stockOf_nonneg hwf1 h2
      obtain ⟨db2, hup⟩ := @updateProductStock_total (tryOp db (updateReturnStatus db a rid st))
        a r.product_id (s + r.quantity) (by omega)
      have hkeep := @updateThenLog_keeps init (tryOp db (updateReturnStatus db a rid st)) db2
        a r.product_id (s + r.quantity) s r.quantity ChangeType.ret hwf1 hr1 h2 (by ring) hup
      simp only [tryOp] at h2 hup hkeep ⊢
      simp only [h2, hup, Option.getD_some]
      exact hkeep
  · exact ⟨hwf1, hr1⟩

theorem insertOrder_keeps {init : ProductId → Int} {db db' : DB} {a : UserId} {row : Order}
    (hwf : WF db) (hr : Recon init db)
    (h : insertOrder db a row = some db') : WF db' ∧ Recon init db' := by
  unfold insertOrder at h
  split at h
  · rw [Option.some_inj] at h
    subst h
    exact ⟨hwf, hr⟩
  · exact absurd h (by simp)

theorem insertPayment_keeps {init : ProductId → Int} {db db' : DB} {a : UserId} {row : Payment}
    (hwf : WF db) (hr : Recon init db)
    (h : insertPayment db a row = some db') : WF db' ∧ Recon init db' := by
  unfold insertPayment at h
  split at h
  · rw [Option.some_inj] at h
    subst h
    exact ⟨hwf, hr⟩
  · exact absurd h (by simp)

theorem releaseRows_keeps {init : ProductId → Int} :
    ∀ (rows : List CartItem) (db db' : DB), WF db → Recon init db →
      releaseRows db rows = some db' → WF db' ∧ Recon init db' := by
  intro rows
  induction rows with
  | nil =>
    intro db db' hwf hr h
    rw [show releaseRows db [] = some db from rfl, Option.some_inj] at h
    subst h
    exact ⟨hwf, hr⟩
  | cons c rest ih =>
    intro db db' hwf hr h
    rw [show releaseRows db (c :: rest) =
      (applyStockDelta db c.product_id c.quantity ChangeType.cart_released).bind
        (fun db1 => releaseRows db1 rest) from rfl] at h
    cases h1 : applyStockDelta db c.product_id c.quantity ChangeType.cart_released with
    | none => rw [h1] at h; exact absurd h (by simp)
    | some db1 =>
      rw [h1] at h
      obtain ⟨hwf1, hr1⟩ := applyStockDelta_keeps hwf hr h1
      exact ih db1 db' hwf1 hr1 h

theorem clearCart_keeps {init : ProductId → Int} {db : DB} {u : UserId}
    (hwf : WF db) (hr : Recon init db) :
    WF (clearCart db u) ∧ Recon init (clearCart db u) := by
  unfold clearCart deleteUserCart
  refine tryOp_keeps ⟨hwf, hr⟩ (fun db' h => ?_)
  refine releaseRows_keeps _ _ db' ?_ ?_ h
  · exact hwf
  · exact hr

theorem handleCheckout_keeps {init : ProductId → Int} {db : DB} {u : UserId}
    {items : List (ProductId × Int)}
    (hwf : WF db) (hr : Recon init db) :
    WF (handleCheckout db u items).1 ∧ Recon init (handleCheckout db u items).1 := by
  cases h1 : insertOrder db u ⟨freshOrderId db, u⟩ with
  | none =>
    simp only [handleCheckout, h1]
    exact ⟨hwf, hr⟩
  | some db1 =>
    obtain ⟨hwf1, hr1⟩ := insertOrder_keeps hwf hr h1
    cases h2 : processItems u (freshOrderId db) db1 items with
    | mk db2 ok =>
      have hpk := processItems_keeps u (freshOrderId db) items db1 hwf1 hr1
      rw [h2] at hpk
      obtain ⟨hwf2, hr2⟩ := hpk
      cases ok with
      | false =>
        simp only [handleCheckout, h1, h2]
        exact ⟨hwf2, hr2⟩
      | true =>
        simp only [handleCheckout, h1, h2]
        exact clearCart_keeps
          (tryOp_keeps ⟨hwf2, hr2⟩ (fun db' h => insertPayment_keeps hwf2 hr2 h)).1
          (tryOp_keeps ⟨hwf2, hr2⟩ (fun db' h => insertPayment_keeps hwf2 hr2 h)).2

theorem applyOp_keeps {init : ProductId → Int} {db : DB} (op : Op)
    (hwf : WF db) (hr : Recon init db) (hop : isStockEdit op = false) :
    WF (applyOp db op) ∧ Recon init (applyOp db op) := by
  cases op with
  | opAddToCart a pid => exact addToCart_keeps hwf hr
  | opUpdateQuantity a pid q => exact updateQuantity_keeps hwf hr
  | opRemoveFromCart a pid => exact removeFromCart_keeps hwf hr
  | opCheckout a items => exact handleCheckout_keeps hwf hr
  | opReturnTransition a rid st =>
    simp only [applyOp]
    cases hfind : findReturn db rid with
    | none => exact ⟨hwf, hr⟩
    | some r => exact handleReturnAction_keeps hwf hr hfind
  | opAdminEditStock a pid v => exact absurd hop (by simp [isStockEdit])

theorem applyOps_keeps {init : ProductId → Int} :
    ∀ (ops : List Op) (db : DB), WF db → Recon init db →
      (∀ op ∈ ops, isStockEdit op = false) →
      WF (ops.foldl applyOp db) ∧ Recon init (ops.foldl applyOp db) := by
  intro ops
  induction ops with
  | nil =>
    intro db hwf hr _
    exact ⟨hwf, hr⟩
  | cons op rest ih =>
    intro db hwf hr hops
    have h1 := applyOp_keeps op hwf hr (hops op (by simp))
    have h2 := ih (applyOp db op) h1.1 h1.2 (fun o ho => hops o (by simp [ho]))
    simpa [List.foldl_cons] using h2

/-- C1 (amended): over every sequence of add-to-cart, change-cart-
quantity, remove-from-cart, checkout and return-transition operations,
each product's stock stays equal to its initial stock plus the signed
sum of its inventory-log deltas; the admin stock edit is excluded
because it writes the stock field with no inventory-log entry (see the
accompanying counterexample). -/
theorem reconciliation_nonedit_ops (init : ProductId → Int) (db : DB) (ops : List Op)
    (hwf : WF db) (hr : Recon init db)
    (hops : ∀ op ∈ ops, isStockEdit op = false) :
    Recon init (ops.foldl applyOp db) :=
  (applyOps_keeps ops db hwf hr hops).2

theorem reconciliation_nonedit_ops_witness :
    WF dbOneProduct ∧ Recon initTen dbOneProduct ∧
      (∀ op ∈ opsScenario, isStockEdit op = false) ∧
      Recon initTen (opsScenario.foldl applyOp dbOneProduct) :=
  ⟨by decide, by decide, by decide,
    reconciliation_nonedit_ops initTen dbOneProduct opsScenario
      (by decide) (by decide) (by decide)⟩

/-- C1 counterexample: the state dbOneProduct satisfies the
reconciliation property, and a single admin stock edit (stock 10
written to 50 by admin 9, one of the operations the claim quantifies
over) breaks it: no inventory-log entry accompanies the write. -/
theorem reconciliation_admin_edit_breaks :
    Recon initTen dbOneProduct ∧
      ¬ Recon initTen (applyOp dbOneProduct (Op.opAdminEditStock 9 1 50)) := by
  constructor
  · decide
  · decide

theorem applyStockDelta_frames {db db' : DB} {pid : ProductId} {delta : Int} {ct : ChangeType}
    (h : applyStockDelta db pid delta ct = some db') :
    db'.cart_items = db.cart_items ∧ db'.orders = db.orders ∧
      db'.order_items = db.order_items ∧ db'.payments = db.payments ∧
      db'.returns = db.returns ∧ db'.user_roles = db.user_roles := by
  obtain ⟨s, _, _, rfl⟩ := applyStockDelta_some h
  exact ⟨rfl, rfl, rfl, rfl, rfl, rfl⟩

theorem insertOrderItem_frames {db db' : DB} {a : UserId} {row : OrderItem}
    (h : insertOrderItem db a row = some db') :
    db'.orders = db.orders ∧ db'.payments = db.payments ∧
      db'.user_roles = db.user_roles ∧ db'.cart_items = db.cart_items ∧
      db'.returns = db.returns := by
  unfold insertOrderItem at h
  split at h
  · have hf := applyStockDelta_frames h
    exact ⟨hf.2.1, hf.2.2.2.1, hf.2.2.2.2.2, hf.1, hf.2.2.2.2.1⟩
  · exact absurd h (by simp)

theorem updateProductStock_frames {db db' : DB} {a : UserId} {pid : ProductId} {v : Int}
    (h : updateProductStock db a pid v = some db') :
    db'.orders = db.orders ∧ db'.payments = db.payments ∧
      db'.user_roles = db.user_roles ∧ db'.cart_items = db.cart_items ∧
      db'.returns = db.returns ∧ db'.inventory_logs = db.inventory_logs ∧
      db'.order_items = db.order_items := by
  unfold updateProductStock at h
  split at h
  · split at h
    · rw [Option.some_inj] at h
      subst h
      exact ⟨rfl, rfl, rfl, rfl, rfl, rfl, rfl⟩
    · split at h
      · exact absurd h (by simp)
      · rw [Option.some_inj] at h
        subst h
        exact ⟨rfl, rfl, rfl, rfl, rfl, rfl, rfl⟩
  · rw [Option.some_inj] at h
    subst h
    exact ⟨rfl, rfl, rfl, rfl, rfl, rfl, rfl⟩

theorem insertInventoryLog_frames {db db' : DB} {a : UserId} {pid : ProductId} {q : Int}
    {ct : ChangeType} (h : insertInventoryLog db a pid q ct = some db') :
    db'.orders = db.orders ∧ db'.payments = db.payments ∧
      db'.user_roles = db.user_roles ∧ db'.cart_items = db.cart_items ∧
      db'.returns = db.returns ∧ db'.products = db.products ∧
      db'.order_items = db.order_items := by
  unfold insertInventoryLog at h
  split at h
  · rw [Option.some_inj] at h
    subst h
    exact ⟨rfl, rfl, rfl, rfl, rfl, rfl, rfl⟩
  · exact absurd h (by simp)

theorem tryLog_frames (db : DB) (a : UserId) (pid : ProductId) (q : Int) (ct : ChangeType) :
    (tryOp db (insertInventoryLog db a pid q ct)).orders = db.orders ∧
      (tryOp db (insertInventoryLog db a pid q ct)).payments = db.payments ∧
      (tryOp db (insertInventoryLog db a pid q ct)).user_roles = db.user_roles ∧
      (tryOp db (insertInventoryLog db a pid q ct)).cart_items = db.cart_items ∧
      (tryOp db (insertInventoryLog db a pid q ct)).returns = db.returns := by
  cases h : insertInventoryLog db a pid q ct with
  | none => simp [tryOp]
  | some db3 =>
    have hf := insertInventoryLog_frames h
    simp only [tryOp, Option.getD_some]
    exact ⟨hf.1, hf.2.1, hf.2.2.1, hf.2.2.2.1, hf.2.2.2.2.1⟩

theorem processItems_frames (u : UserId) (oid : OrderId) :
    ∀ (items : List (ProductId × Int)) (db : DB),
      (processItems u oid db items).1.orders = db.orders ∧
        (processItems u oid db items).1.payments = db.payments ∧
        (processItems u oid db items).1.user_roles = db.user_roles ∧
        (processItems u oid db items).1.cart_items = db.cart_items ∧
        (processItems u oid db items).1.returns = db.returns := by
  intro items
  induction items with
  | nil =>
    intro db
    exact ⟨rfl, rfl, rfl, rfl, rfl⟩
  | cons it rest ih =>
    intro db
    obtain ⟨pid, q⟩ := it
    cases h1 : insertOrderItem db u ⟨oid, pid, q⟩ with
    | none =>
      simp [processItems, h1]
    | some db1 =>
      have hf1 := insertOrderItem_frames h1
      cases h2 : stockOf db1 pid with
      | none =>
        simp only [processItems, h1, h2]
        exact ⟨hf1.1, hf1.2.1, hf1.2.2.1, hf1.2.2.2.1, hf1.2.2.2.2⟩
      | some s =>
        cases h3 : updateProductStock db1 u pid (s - q) with
        | none =>
          simp only [processItems, h1, h2, h3]
          exact ⟨hf1.1, hf1.2.1, hf1.2.2.1, hf1.2.2.2.1, hf1.2.2.2.2⟩
        | some db2 =>
          have hf2 := updateProductStock_frames h3
          have hf3 := tryLog_frames db2 u pid (-q) ChangeType.sale
          have hrest := ih (tryOp db2 (insertInventoryLog db2 u pid (-q) ChangeType.sale))
          simp only [processItems, h1, h2, h3]
          refine ⟨?_, ?_, ?_, ?_, ?_⟩
          · rw [hrest.1, hf3.1, hf2.1, hf1.1]
          · rw [hrest.2.1, hf3.2.1, hf2.2.1, hf1.2.1]
          · rw [hrest.2.2.1, hf3.2.2.1, hf2.2.2.1, hf1.2.2.1]
          · rw [hrest.2.2.2.1, hf3.2.2.2.1, hf2.2.2.2.1, hf1.2.2.2.1]
          · rw [hrest.2.2.2.2, hf3.2.2.2.2, hf2.2.2.2.2.1, hf1.2.2.2.2]

theorem releaseRows_frames :
    ∀ (rows : List CartItem) (db db' : DB), releaseRows db rows = some db' →
      db'.orders = db.orders ∧ db'.payments = db.payments ∧
        db'.user_roles = db.user_roles ∧ db'.cart_items = db.cart_items ∧
        db'.returns = db.returns := by
  intro rows
  induction rows with
  | nil =>
    intro db db' h
    rw [show releaseRows db [] = some db from rfl, Option.some_inj] at h
    subst h
    exact ⟨rfl, rfl, rfl, rfl, rfl⟩
  | cons c rest ih =>
    intro db db' h
    rw [show releaseRows db (c :: rest) =
      (applyStockDelta db c.product_id c.quantity ChangeType.cart_released).bind
        (fun db1 => releaseRows db1 rest) from rfl] at h
    cases h1 : applyStockDelta db c.product_id c.quantity ChangeType.cart_released with
    | none => rw [h1] at h; exact absurd h (by simp)
    | some db1 =>
      rw [h1] at h
      have hf1 := applyStockDelta_frames h1
      have hrest := ih db1 db' h
      refine ⟨?_, ?_, ?_, ?_, ?_⟩
      · rw [hrest.1, hf1.2.1]
      · rw [hrest.2.1, hf1.2.2.2.1]
      · rw [hrest.2.2.1, hf1.2.2.2.2.2]
      · rw [hrest.2.2.2.1, hf1.1]
      · rw [hrest.2.2.2.2, hf1.2.2.2.2.1]

theorem clearCart_frames (db : DB) (u : UserId) :
    (clearCart db u).orders = db.orders ∧ (clearCart db u).payments = db.payments ∧
      (clearCart db u).user_roles = db.user_roles := by
  unfold clearCart deleteUserCart
  cases h : releaseRows { db with cart_items := db.cart_items.filter (fun c => !(c.user_id == u)) }
      (db.cart_items.filter (fun c => c.user_id == u)) with
  | none => simp [tryOp]
  | some db' =>
    have hf := releaseRows_frames _ _ _ h
    simp only [tryOp, Option.getD_some]
    exact ⟨hf.1, hf.2.1, hf.2.2.1⟩

theorem insertOrder_self (db : DB) (u : UserId) (oid : OrderId) :
    insertOrder db u ⟨oid, u⟩ = some { db with orders := db.orders ++ [⟨oid, u⟩] } := by
  unfold insertOrder canInsertOrder
  simp

/-- C2 (amended): checkout is not all-or-nothing.  The order row is
inserted first and there is no enclosing transaction, so whenever a
later step makes the checkout report failure, the created order row
(and with it every effect of the lines processed before the failure)
remains observable. -/
theorem checkout_failure_keeps_order (db : DB) (u : UserId) (items : List (ProductId × Int))
    (hfail : (handleCheckout db u items).2 = false) :
    (handleCheckout db u items).1.orders = db.orders ++ [⟨freshOrderId db, u⟩] := by
  cases hp : processItems u (freshOrderId db)
      { db with orders := db.orders ++ [⟨freshOrderId db, u⟩] } items with
  | mk db2 ok =>
    have hfr := processItems_frames u (freshOrderId db) items
      { db with orders := db.orders ++ [⟨freshOrderId db, u⟩] }
    rw [hp] at hfr
    cases ok with
    | true =>
      exfalso
      simp only [handleCheckout, insertOrder_self, hp] at hfail
      exact absurd hfail (by decide)
    | false =>
      simp only [handleCheckout, insertOrder_self, hp]
      exact hfr.1

/-- C2 counterexample: a concrete checkout by customer 3 over a stale
two-line snapshot whose second product was deleted: the run reports
failure, yet the order row, the first order line, its stock decrement
(5 to 4) and its sale log entry all persist. -/
theorem checkout_partial_effects_persist :
    (handleCheckout dbStaleSnapshot 3 [(1, 1), (2, 1)]).2 = false ∧
      (handleCheckout dbStaleSnapshot 3 [(1, 1), (2, 1)]).1.orders = [⟨1, 3⟩] ∧
      (handleCheckout dbStaleSnapshot 3 [(1, 1), (2, 1)]).1.order_items = [⟨1, 1, 1⟩] ∧
      stockOf (handleCheckout dbStaleSnapshot 3 [(1, 1), (2, 1)]).1 1 = some 4 ∧
      (handleCheckout dbStaleSnapshot 3 [(1, 1), (2, 1)]).1.inventory_logs =
        [⟨1, -1, ChangeType.sale⟩] := by
  refine ⟨?_, ?_, ?_, ?_, ?_⟩ <;> decide

theorem checkout_failure_keeps_order_witness :
    (handleCheckout dbStaleSnapshot 4 [(1, 1), (2, 1)]).2 = false ∧
      (handleCheckout dbStaleSnapshot 4 [(1, 1), (2, 1)]).1.orders =
        dbStaleSnapshot.orders ++ [⟨1, 4⟩] :=
  ⟨by decide, checkout_failure_keeps_order dbStaleSnapshot 4 [(1, 1), (2, 1)] (by decide)⟩

theorem find?_setReturnStatus (rs : List ReturnRow) (rid : ReturnId) (st : ReturnStatus) :
    (rs.map (fun r => if r.id == rid then { r with status := st } else r)).find?
        (fun r => r.id == rid) =
      (rs.find? (fun r => r.id == rid)).map
        (fun r => if r.id == rid then { r with status := st } else r) := by
  rw [List.find?_map]
  have hpred : ((fun r : ReturnRow => r.id == rid) ∘
      (fun r => if r.id == rid then { r with status := st } else r)) =
      fun r : ReturnRow => r.id == rid := by
    funext r
    by_cases h : r.id = rid <;> simp [h]
  rw [hpred]

theorem setReturnStatus_map_id (rs : List ReturnRow) (rid : ReturnId) (st : ReturnStatus)
    (h : ∀ x ∈ rs, x.id = rid → x.status = st) :
    rs.map (fun r => if r.id == rid then { r with status := st } else r) = rs := by
  rw [List.map_congr_left]
  · exact List.map_id' rs
  · intro x hx
    by_cases hid : x.id = rid
    · rw [if_pos (by simpa using hid)]
      rw [← h x hx hid]
    · rw [if_neg (by simpa using hid)]

theorem updateReturnStatus_already (db2 : DB) (a : UserId) (rid : ReturnId) (r2 : ReturnRow)
    (hfind : findReturn db2 rid = some r2) (hst2 : r2.status = ReturnStatus.restocked)
    (hall : ∀ x ∈ db2.returns, x.id = rid → x.status = ReturnStatus.restocked) :
    updateReturnStatus db2 a rid ReturnStatus.restocked = some db2 := by
  simp only [updateReturnStatus, hfind]
  by_cases hcan : canUpdateReturn db2 a r2
  · rw [if_pos hcan]
    rw [if_neg (by simp [hst2])]
    rw [setReturnStatus_map_id db2.returns rid ReturnStatus.restocked hall]
  · rw [if_neg hcan]

/-- C4: applying the status transition to restocked twice to the same
Return record increments the product's stock only once; the
restock_on_return trigger fires only when the previous status differs
from restocked, so the second application returns the very same state,
leaving the stock counter and the inventory log unchanged. -/
theorem restock_transition_idempotent (db : DB) (a : UserId) (rid : ReturnId)
    (r : ReturnRow) (s : Int)
    (hadmin : isAdmin db a = true)
    (hfind : findReturn db rid = some r)
    (hst : r.status ≠ ReturnStatus.restocked)
    (hs : stockOf db r.product_id = some s)
    (hq : 0 ≤ s + r.quantity) :
    stockOf (restockTransition db a rid) r.product_id = some (s + r.quantity) ∧
      (restockTransition db a rid).inventory_logs =
        db.inventory_logs ++ [⟨r.product_id, r.quantity, ChangeType.ret⟩] ∧
      restockTransition (restockTransition db a rid) a rid = restockTransition db a rid := by
  have hrid : r.id = rid := by simpa using List.find?_some hfind
  have hguard : (ReturnStatus.restocked == ReturnStatus.restocked
      && r.status != ReturnStatus.restocked) = true := by
    simp [hst]
  have hcan : canUpdateReturn db a r = true := hadmin
  have hs1 : stockOf { db with returns := db.returns.map (fun r0 =>
      if r0.id == rid then { r0 with status := ReturnStatus.restocked } else r0) }
      r.product_id = some s := hs
  have h2 : applyStockDelta { db with returns := db.returns.map (fun r0 =>
      if r0.id == rid then { r0 with status := ReturnStatus.restocked } else r0) }
      r.product_id r.quantity ChangeType.ret = some { db with
        returns := db.returns.map (fun r0 =>
          if r0.id == rid then { r0 with status := ReturnStatus.restocked } else r0),
        products := setStockList db.products r.product_id (s + r.quantity),
        inventory_logs := db.inventory_logs ++ [⟨r.product_id, r.quantity, ChangeType.ret⟩] } := by
    simp only [applyStockDelta, hs1]
    rw [if_neg (by omega)]
  have h1 : restockTransition db a rid = { db with
      returns := db.returns.map (fun r0 =>
        if r0.id == rid then { r0 with status := ReturnStatus.restocked } else r0),
      products := setStockList db.products r.product_id (s + r.quantity),
      inventory_logs := db.inventory_logs ++ [⟨r.product_id, r.quantity, ChangeType.ret⟩] } := by
    simp only [restockTransition, updateReturnStatus, hfind]
    rw [if_pos hcan, if_pos hguard, h2]
    rfl
  refine ⟨?_, ?_, ?_⟩
  · rw [h1]
    unfold stockOf findProduct at hs ⊢
    rw [show ({ db with
      returns := db.returns.map (fun r0 =>
        if r0.id == rid then { r0 with status := ReturnStatus.restocked } else r0),
      products := setStockList db.products r.product_id (s + r.quantity),
      inventory_logs := db.inventory_logs ++ [⟨r.product_id, r.quantity, ChangeType.ret⟩] } : DB).products
      = setStockList db.products r.product_id (s + r.quantity) from rfl]
    rw [stockOf_map_set]
    cases hf : db.products.find? (fun p => p.id == r.product_id) with
    | none => rw [hf] at hs; exact absurd hs (by simp)
    | some p =>
      rw [hf] at hs
      simp
  · rw [h1]
  · rw [h1]
    have hall : ∀ x ∈ ({ db with
        returns := db.returns.map (fun r0 =>
          if r0.id == rid then { r0 with status := ReturnStatus.restocked } else r0),
        products := setStockList db.products r.product_id (s + r.quantity),
        inventory_logs := db.inventory_logs
          ++ [⟨r.product_id, r.quantity, ChangeType.ret⟩] } : DB).returns,
        x.id = rid → x.status = ReturnStatus.restocked := by
      intro x hx hid
      simp only at hx
      obtain ⟨y, hy, rfl⟩ := List.mem_map.mp hx
      by_cases hyid : y.id = rid
      · rw [if_pos (by simpa using hyid)]
      · rw [if_neg (by simpa using hyid)] at hid ⊢
        exact absurd hid hyid
    have hfind2 : findReturn { db with
        returns := db.returns.map (fun r0 =>
          if r0.id == rid then { r0 with status := ReturnStatus.restocked } else r0),
        products := setStockList db.products r.product_id (s + r.quantity),
        inventory_logs := db.inventory_logs
          ++ [⟨r.product_id, r.quantity, ChangeType.ret⟩] } rid
        = some { r with status := ReturnStatus.restocked } := by
      unfold findReturn
      rw [show ({ db with
        returns := db.returns.map (fun r0 =>
          if r0.id == rid then { r0 with status := ReturnStatus.restocked } else r0),
        products := setStockList db.products r.product_id (s + r.quantity),
        inventory_logs := db.inventory_logs
          ++ [⟨r.product_id, r.quantity, ChangeType.ret⟩] } : DB).returns
        = db.returns.map (fun r0 =>
          if r0.id == rid then { r0 with status := ReturnStatus.restocked } else r0) from rfl]
      rw [find?_setReturnStatus]
      unfold findReturn at hfind
      rw [hfind]
      rw [Option.map_some']
      rw [if_pos (by simpa using hrid)]
    have hupd2 := updateReturnStatus_already _ a rid _ hfind2 rfl hall
    unfold restockTransition
    rw [hupd2]
    rfl

theorem restock_transition_idempotent_witness :
    stockOf (restockTransition dbPendingReturn 9 1) 1 = some 7 ∧
      (restockTransition dbPendingReturn 9 1).inventory_logs = [⟨1, 2, ChangeType.ret⟩] ∧
      restockTransition (restockTransition dbPendingReturn 9 1) 9 1 =
        restockTransition dbPendingReturn 9 1 :=
  restock_transition_idempotent dbPendingReturn 9 1 ⟨1, 1, 1, 2, ReturnStatus.pending⟩ 5
    (by decide) (by decide) (by decide) (by decide) (by decide)

/-- C5: for an actor without the admin role, every row-level-security
policy of the cart_items, orders, order_items and returns tables
evaluates to false on a resource whose owning user is someone else, so
every read or mutation of another user's cart line, order or return is
denied in every state. -/
theorem ownership_isolation (db : DB) (a : UserId) (hcust : isAdmin db a = false) :
    (∀ c : CartItem, c.user_id ≠ a →
      canSelectCartItem db a c = false ∧ canInsertCartItem db a c = false ∧
        canUpdateCartItem db a c = false ∧ canDeleteCartItem db a c = false) ∧
      (∀ o : Order, o.user_id ≠ a →
        canSelectOrder db a o = false ∧ canInsertOrder db a o = false ∧
          canUpdateOrder db a o = false ∧ canDeleteOrder db a o = false) ∧
      (∀ oi : OrderItem, orderOwner db oi.order_id ≠ some a →
        canSelectOrderItem db a oi = false ∧ canInsertOrderItem db a oi = false ∧
          canUpdateOrderItem db a oi = false ∧ canDeleteOrderItem db a oi = false) ∧
      (∀ r : ReturnRow, orderOwner db r.order_id ≠ some a →
        canSelectReturn db a r = false ∧ canInsertReturn db a r = false ∧
          canUpdateReturn db a r = false ∧ canDeleteReturn db a r = false) := by
  refine ⟨?_, ?_, ?_, ?_⟩
  · intro c hc
    refine ⟨?_, ?_, ?_, ?_⟩ <;>
      simp [canSelectCartItem, canInsertCartItem, canUpdateCartItem, canDeleteCartItem,
        Ne.symm hc]
  · intro o ho
    refine ⟨?_, ?_, ?_, ?_⟩ <;>
      simp [canSelectOrder, canInsertOrder, canUpdateOrder, canDeleteOrder,
        Ne.symm ho, hcust]
  · intro oi hoi
    refine ⟨?_, ?_, ?_, ?_⟩ <;>
      simp [canSelectOrderItem, canInsertOrderItem, canUpdateOrderItem,
        canDeleteOrderItem, hoi, hcust]
  · intro r hr
    refine ⟨?_, ?_, ?_, ?_⟩ <;>
      simp [canSelectReturn, canInsertReturn, canUpdateReturn, canDeleteReturn,
        hr, hcust]

theorem ownership_isolation_witness :
    canSelectCartItem dbTwoCustomers 3 ⟨4, 1, 1⟩ = false ∧
      canUpdateOrder dbTwoCustomers 3 ⟨1, 4⟩ = false ∧
      canInsertOrderItem dbTwoCustomers 3 ⟨1, 1, 1⟩ = false ∧
      canUpdateReturn dbTwoCustomers 3 ⟨1, 1, 1, 1, ReturnStatus.pending⟩ = false :=
  have h := ownership_isolation dbTwoCustomers 3 (by decide)
  ⟨(h.1 ⟨4, 1, 1⟩ (by decide)).1,
    (h.2.1 ⟨1, 4⟩ (by decide)).2.2.1,
    (h.2.2.1 ⟨1, 1, 1⟩ (by decide)).2.1,
    (h.2.2.2 ⟨1, 1, 1, 1, ReturnStatus.pending⟩ (by decide)).2.2.1⟩

theorem stockOf_set_db {db dbX : DB} {pid : ProductId} {v : Int}
    (h : dbX.products = setStockList db.products pid v) (pid2 : ProductId) :
    stockOf dbX pid2 = (stockOf db pid2).map (fun s0 => if pid2 == pid then v else s0) := by
  unfold stockOf findProduct
  rw [h, stockOf_map_set, Option.map_map]
  rfl

/-- C6: inserting a cart line of quantity Q and then removing it
returns the product's stock to its pre-add value, restores the cart,
and appends exactly one cart_reserved entry with delta -Q followed by
one cart_released entry with delta +Q: an equal-and-opposite pair. -/
theorem cart_add_remove_symmetry (db : DB) (u : UserId) (pid : ProductId) (Q s : Int)
    (hnone : findCartItem db u pid = none)
    (hQ : 1 ≤ Q)
    (hs : stockOf db pid = some s)
    (hQs : 0 ≤ s - Q) :
    ∃ db1, insertCartItem db u ⟨u, pid, Q⟩ = some db1 ∧
      (∀ pid2, stockOf (removeFromCart db1 u pid) pid2 = stockOf db pid2) ∧
      (removeFromCart db1 u pid).cart_items = db.cart_items ∧
      (removeFromCart db1 u pid).inventory_logs = db.inventory_logs ++
        [⟨pid, -Q, ChangeType.cart_reserved⟩, ⟨pid, Q, ChangeType.cart_released⟩] := by
  have hrowpred : ((fun c : CartItem => c.user_id == u && c.product_id == pid)
      (⟨u, pid, Q⟩ : CartItem)) = true := by simp
  have hnomem : ∀ c ∈ db.cart_items, ¬(c.user_id == u && c.product_id == pid) = true := by
    intro c hc
    have := List.find?_eq_none.mp (by unfold findCartItem at hnone; exact hnone) c hc
    simpa using this
  have hins : insertCartItem db u ⟨u, pid, Q⟩ = some { db with
      cart_items := db.cart_items ++ [⟨u, pid, Q⟩],
      products := setStockList db.products pid (s + -Q),
      inventory_logs := db.inventory_logs ++ [⟨pid, -Q, ChangeType.cart_reserved⟩] } := by
    unfold insertCartItem
    rw [if_pos ?_]
    · simp only [applyStockDelta,
        show stockOf { db with cart_items := db.cart_items ++ [⟨u, pid, Q⟩] } pid = some s from hs]
      rw [if_neg (by omega)]
    · unfold canInsertCartItem
      rw [hnone]
      simp
      omega
  refine ⟨_, hins, ?_⟩
  have hfind1 : findCartItem { db with
      cart_items := db.cart_items ++ [⟨u, pid, Q⟩],
      products := setStockList db.products pid (s + -Q),
      inventory_logs := db.inventory_logs ++ [⟨pid, -Q, ChangeType.cart_reserved⟩] } u pid
      = some ⟨u, pid, Q⟩ := by
    unfold findCartItem
    rw [show ({ db with
      cart_items := db.cart_items ++ [⟨u, pid, Q⟩],
      products := setStockList db.products pid (s + -Q),
      inventory_logs := db.inventory_logs ++ [⟨pid, -Q, ChangeType.cart_reserved⟩] } : DB).cart_items
      = db.cart_items ++ [⟨u, pid, Q⟩] from rfl]
    rw [List.find?_append]
    unfold findCartItem at hnone
    rw [hnone]
    simp
  have hfilter : (db.cart_items ++ [(⟨u, pid, Q⟩ : CartItem)]).filter
      (fun c => !(c.user_id == u && c.product_id == pid)) = db.cart_items := by
    rw [List.filter_append]
    rw [List.filter_eq_self.mpr (by
      intro c hc
      have h0 := hnomem c hc
      simp only [Bool.not_eq_true] at h0 ⊢
      simp at h0 ⊢
      tauto)]
    simp
  have hstock1 : stockOf { db with
      cart_items := db.cart_items,
      products := setStockList db.products pid (s + -Q),
      inventory_logs := db.inventory_logs ++ [⟨pid, -Q, ChangeType.cart_reserved⟩] } pid
      = some (s + -Q) := by
    rw [stockOf_set_db rfl pid, hs]
    simp
  have hdel : deleteCartItem { db with
      cart_items := db.cart_items ++ [⟨u, pid, Q⟩],
      products := setStockList db.products pid (s + -Q),
      inventory_logs := db.inventory_logs ++ [⟨pid, -Q, ChangeType.cart_reserved⟩] } u u pid
      = some { db with
        cart_items := db.cart_items,
        products := setStockList (setStockList db.products pid (s + -Q)) pid (s + -Q + Q),
        inventory_logs := db.inventory_logs
          ++ [⟨pid, -Q, ChangeType.cart_reserved⟩, ⟨pid, Q, ChangeType.cart_released⟩] } := by
    simp only [deleteCartItem, hfind1]
    rw [if_pos (show canDeleteCartItem { db with
      cart_items := db.cart_items ++ [⟨u, pid, Q⟩],
      products := setStockList db.products pid (s + -Q),
      inventory_logs := db.inventory_logs ++ [⟨pid, -Q, ChangeType.cart_reserved⟩] }
      u ⟨u, pid, Q⟩ = true by simp [canDeleteCartItem])]
    rw [hfilter]
    simp only [applyStockDelta, hstock1]
    rw [if_neg (by omega)]
    simp [List.append_assoc]
  have hrm : removeFromCart { db with
      cart_items := db.cart_items ++ [⟨u, pid, Q⟩],
      products := setStockList db.products pid (s + -Q),
      inventory_logs := db.inventory_logs ++ [⟨pid, -Q, ChangeType.cart_reserved⟩] } u pid
      = { db with
        cart_items := db.cart_items,
        products := setStockList (setStockList db.products pid (s + -Q)) pid (s + -Q + Q),
        inventory_logs := db.inventory_logs
          ++ [⟨pid, -Q, ChangeType.cart_reserved⟩, ⟨pid, Q, ChangeType.cart_released⟩] } := by
    unfold removeFromCart
    rw [hdel]
    rfl
  rw [hrm]
  refine ⟨?_, rfl, by simp⟩
  intro pid2
  unfold stockOf findProduct
  rw [show ({ db with
      cart_items := db.cart_items,
      products := setStockList (setStockList db.products pid (s + -Q)) pid (s + -Q + Q),
      inventory_logs := db.inventory_logs
        ++ [⟨pid, -Q, ChangeType.cart_reserved⟩, ⟨pid, Q, ChangeType.cart_released⟩] } : DB).products
    = setStockList (setStockList db.products pid (s + -Q)) pid (s + -Q + Q) from rfl]
  rw [find?_setStockList, find?_setStockList, Option.map_map, Option.map_map]
  cases hf : db.products.find? (fun p => p.id == pid2) with
  | none => simp
  | some p =>
    have hpid2 : p.id = pid2 := by simpa using List.find?_some hf
    by_cases hp : pid2 = pid
    · subst hp
      unfold stockOf findProduct at hs
      rw [hf] at hs
      simp only [Option.map_some', Option.some.injEq] at hs
      simp [Function.comp, hpid2]
      omega
    · have hpp : ¬ p.id = pid := by rw [hpid2]; exact hp
      simp [Function.comp, hpp]

theorem cart_add_remove_symmetry_witness :
    findCartItem dbOneProduct 3 1 = none ∧
      (∃ db1, insertCartItem dbOneProduct 3 ⟨3, 1, 4⟩ = some db1 ∧
        (∀ pid2, stockOf (removeFromCart db1 3 1) pid2 = stockOf dbOneProduct pid2) ∧
        (removeFromCart db1 3 1).cart_items = dbOneProduct.cart_items ∧
        (removeFromCart db1 3 1).inventory_logs = dbOneProduct.inventory_logs ++
          [⟨1, -4, ChangeType.cart_reserved⟩, ⟨1, 4, ChangeType.cart_released⟩]) :=
  ⟨by decide, cart_add_remove_symmetry dbOneProduct 3 1 4 10
    (by decide) (by decide) (by decide) (by decide)⟩

/-- C7: creating a new account runs handle_new_user, which gives the
fresh user exactly one customer role row and no admin role row. -/
theorem role_bootstrap (db : DB) (u : UserId)
    (hfresh : ∀ ur ∈ db.user_roles, ur.user_id ≠ u) :
    rolesOf (handle_new_user db u) u = [⟨u, Role.customer⟩] ∧
      ((handle_new_user db u).user_roles.filter
        (fun x => x.user_id == u && x.role == Role.admin)).length = 0 := by
  have h1 : db.user_roles.filter (fun x => x.user_id == u) = [] := by
    rw [List.filter_eq_nil]
    intro x hx
    simpa using hfresh x hx
  have h2 : db.user_roles.filter (fun x => x.user_id == u && x.role == Role.admin) = [] := by
    rw [List.filter_eq_nil]
    intro x hx
    simp only [Bool.and_eq_true, not_and, beq_iff_eq]
    intro hxu _
    exact hfresh x hx hxu
  constructor
  · unfold rolesOf handle_new_user
    rw [show ({ db with
      profiles := db.profiles ++ [⟨u⟩],
      user_roles := db.user_roles ++ [⟨u, Role.customer⟩] } : DB).user_roles
      = db.user_roles ++ [⟨u, Role.customer⟩] from rfl]
    rw [List.filter_append, h1]
    simp
  · unfold handle_new_user
    rw [show ({ db with
      profiles := db.profiles ++ [⟨u⟩],
      user_roles := db.user_roles ++ [⟨u, Role.customer⟩] } : DB).user_roles
      = db.user_roles ++ [⟨u, Role.customer⟩] from rfl]
    rw [List.filter_append, h2]
    simp

theorem role_bootstrap_witness :
    rolesOf (handle_new_user dbOneProduct 5) 5 = [⟨5, Role.customer⟩] ∧
      ((handle_new_user dbOneProduct 5).user_roles.filter
        (fun x => x.user_id == 5 && x.role == Role.admin)).length = 0 :=
  role_bootstrap dbOneProduct 5 (by decide)

/-- C8 counterexample: on a product whose stock is 0, an adjustment of
delta -1 does not succeed: the products CHECK (stock >= 0) rejects it,
an insufficient-stock failure the claim says can never happen. -/
theorem adjustStock_negative_rejected :
    adjustStock dbSoldOut 1 (-1) = AdjustResult.stockCheckViolation := by decide

/-- C8 (amended): the stock adjustment does forbid negative resulting
stock: whenever the product exists and the new stock would be
negative, the adjustment fails with the stock CHECK violation, and it
succeeds exactly when the new stock stays non-negative. -/
theorem adjustStock_stock_check (db : DB) (pid : ProductId) (delta : Int) (p : Product)
    (hfind : findProduct db pid = some p) :
    (p.stock + delta < 0 → adjustStock db pid delta = AdjustResult.stockCheckViolation) ∧
      (0 ≤ p.stock + delta → adjustStock db pid delta = AdjustResult.ok
        { db with products := setStockList db.products pid (p.stock + delta) }
        (p.stock + delta)) := by
  constructor <;> intro h
  · simp only [adjustStock, hfind]
    rw [if_pos h]
  · simp only [adjustStock, hfind]
    rw [if_neg (by omega)]

theorem adjustStock_stock_check_witness :
    adjustStock dbOneProduct 1 (-11) = AdjustResult.stockCheckViolation ∧
      adjustStock dbOneProduct 1 (-10) = AdjustResult.ok
        { dbOneProduct with products := setStockList dbOneProduct.products 1 0 } 0 :=
  ⟨(adjustStock_stock_check dbOneProduct 1 (-11) ⟨1, 10, 0, none⟩ (by decide)).1 (by decide),
    (adjustStock_stock_check dbOneProduct 1 (-10) ⟨1, 10, 0, none⟩ (by decide)).2 (by decide)⟩

/-- C9 counterexample: bulk_update_discount is not admin-only: user 7,
who holds only the customer role, successfully runs it and changes the
discount of the category-1 product from 0 to 50. -/
theorem bulk_discount_by_customer :
    isAdmin dbDiscountable 7 = false ∧
      bulk_update_discount dbDiscountable (some 7) 1 50 =
        BulkResult.ok { dbDiscountable with
          products := [⟨1, 10, 50, some 1⟩, ⟨2, 4, 0, some 2⟩] } 1 := by
  constructor
  · decide
  · decide

/-- C9 (amended): bulk discount application is available to every
authenticated actor (the function is SECURITY DEFINER, granted to all
authenticated users, and performs no role check), and it is a pure
metadata update: it succeeds for any in-range discount, modifies only
the discount percentage of the products of the given category, leaves
every stock unchanged and appends no inventory-log entry. -/
theorem bulk_discount_frame (db : DB) (actor : UserId) (cat : Nat) (d : Int)
    (hd0 : 0 ≤ d) (hd1 : d ≤ 100) :
    ∃ db2, bulk_update_discount db (some actor) cat d = BulkResult.ok db2
        ((db.products.filter (fun p => p.category_id == some cat)).length) ∧
      db2.inventory_logs = db.inventory_logs ∧
      (∀ pid, stockOf db2 pid = stockOf db pid) ∧
      (∀ p2 ∈ db2.products, ∃ p ∈ db.products, p2.id = p.id ∧ p2.stock = p.stock ∧
        p2.category_id = p.category_id ∧
        p2.discount_percentage =
          (if p.category_id == some cat then d else p.discount_percentage)) := by
  refine ⟨{ db with products := db.products.map (fun p =>
      if p.category_id == some cat then { p with discount_percentage := d } else p) },
    ?_, rfl, ?_, ?_⟩
  · simp only [bulk_update_discount]
    rw [if_neg (by
      intro hconj
      simp only [Bool.and_eq_true, Bool.or_eq_true, decide_eq_true_eq] at hconj
      exact absurd hconj.2 (by omega))]
  · intro pid
    unfold stockOf findProduct
    rw [show ({ db with products := db.products.map (fun p =>
        if p.category_id == some cat then { p with discount_percentage := d } else p) } : DB).products
      = db.products.map (fun p =>
        if p.category_id == some cat then { p with discount_percentage := d } else p) from rfl]
    rw [List.find?_map]
    have hpred : ((fun p : Product => p.id == pid) ∘ (fun p =>
        if p.category_id == some cat then { p with discount_percentage := d } else p)) =
        fun p : Product => p.id == pid := by
      funext p
      by_cases h : p.category_id = some cat <;> simp [h]
    rw [hpred, Option.map_map]
    cases db.products.find? (fun p => p.id == pid) with
    | none => rfl
    | some p =>
      by_cases h : p.category_id = some cat <;> simp [Function.comp, h]
  · intro p2 hp2
    obtain ⟨p, hp, rfl⟩ := List.mem_map.mp hp2
    refine ⟨p, hp, ?_⟩
    by_cases h : p.category_id == some cat
    · rw [if_pos h]
      rw [if_pos h]
      exact ⟨rfl, rfl, rfl, rfl⟩
    · rw [if_neg h]
      rw [if_neg h]
      exact ⟨rfl, rfl, rfl, rfl⟩

theorem bulk_discount_frame_witness :
    ∃ db2, bulk_update_discount dbDiscountable (some 7) 1 50 = BulkResult.ok db2
        ((dbDiscountable.products.filter (fun p => p.category_id == some 1)).length) ∧
      db2.inventory_logs = dbDiscountable.inventory_logs ∧
      (∀ pid, stockOf db2 pid = stockOf dbDiscountable pid) ∧
      (∀ p2 ∈ db2.products, ∃ p ∈ dbDiscountable.products, p2.id = p.id ∧ p2.stock = p.stock ∧
        p2.category_id = p.category_id ∧
        p2.discount_percentage =
          (if p.category_id == some 1 then 50 else p.discount_percentage)) :=
  bulk_discount_frame dbDiscountable 7 1 50 (by decide) (by decide)

theorem isAdmin_congr {db1 db2 : DB} (a : UserId) (h : db1.user_roles = db2.user_roles) :
    isAdmin db1 a = isAdmin db2 a := by
  unfold isAdmin has_role
  rw [h]

theorem itemsQty_cons (pid : ProductId) (q : Int) (rest : List (ProductId × Int))
    (pid2 : ProductId) :
    itemsQty ((pid, q) :: rest) pid2 = (if pid = pid2 then q else 0) + itemsQty rest pid2 := by
  by_cases h : pid = pid2 <;> simp [itemsQty, h]

theorem cartQty_cons (c : CartItem) (rest : List CartItem) (pid2 : ProductId) :
    cartQty (c :: rest) pid2 =
      (if c.product_id = pid2 then c.quantity else 0) + cartQty rest pid2 := by
  by_cases h : c.product_id = pid2 <;> simp [cartQty, h]

theorem stockOf_after_delta {db db' : DB} {pid : ProductId} {delta : Int} {ct : ChangeType}
    (h : applyStockDelta db pid delta ct = some db') :
    ∀ pid2 s2, stockOf db pid2 = some s2 →
      stockOf db' pid2 = some (s2 + if pid = pid2 then delta else 0) := by
  obtain ⟨s, hs, hpos, rfl⟩ := applyStockDelta_some h
  intro pid2 s2 hs2
  unfold stockOf findProduct
  rw [show ({ db with
    products := setStockList db.products pid (s + delta),
    inventory_logs := db.inventory_logs ++ [⟨pid, delta, ct⟩] } : DB).products
    = setStockList db.products pid (s + delta) from rfl]
  rw [stockOf_map_set]
  unfold stockOf findProduct at hs2
  cases hf : db.products.find? (fun p => p.id == pid2) with
  | none => rw [hf] at hs2; exact absurd hs2 (by simp)
  | some p =>
    rw [hf] at hs2
    simp only [Option.map_some', Option.some.injEq] at hs2
    by_cases hpp : pid2 = pid
    · subst hpp
      unfold stockOf findProduct at hs
      rw [hf] at hs
      simp only [Option.map_some', Option.some.injEq] at hs
      simp
      omega
    · have : ¬ pid = pid2 := fun hx => hpp hx.symm
      simp [hpp, this, hs2]

theorem logs_after_delta {db db' : DB} {pid : ProductId} {delta : Int} {ct : ChangeType}
    (h : applyStockDelta db pid delta ct = some db') :
    db'.inventory_logs = db.inventory_logs ++ [⟨pid, delta, ct⟩] := by
  obtain ⟨s, _, _, rfl⟩ := applyStockDelta_some h
  rfl

theorem nonneg_after_delta {db db' : DB} {pid : ProductId} {delta : Int} {ct : ChangeType}
    (h : applyStockDelta db pid delta ct = some db')
    (hnn : ∀ p ∈ db.products, 0 ≤ p.stock) :
    ∀ p ∈ db'.products, 0 ≤ p.stock := by
  obtain ⟨s, hs, hpos, rfl⟩ := applyStockDelta_some h
  exact nonneg_products_set db.products pid (s + delta) hnn hpos

theorem insertOrderItem_effects {db db' : DB} {a : UserId} {row : OrderItem}
    (h : insertOrderItem db a row = some db') :
    db'.inventory_logs = db.inventory_logs
        ++ [⟨row.product_id, -row.quantity, ChangeType.sale⟩] ∧
      (∀ pid2 s2, stockOf db pid2 = some s2 →
        stockOf db' pid2 = some (s2 + if row.product_id = pid2 then -row.quantity else 0)) ∧
      ((∀ p ∈ db.products, 0 ≤ p.stock) → ∀ p ∈ db'.products, 0 ≤ p.stock) := by
  unfold insertOrderItem at h
  split at h
  · have hl := logs_after_delta h
    refine ⟨hl, ?_, ?_⟩
    · intro pid2 s2 hs2
      exact stockOf_after_delta h pid2 s2 hs2
    · intro hnn
      exact nonneg_after_delta h hnn
  · exact absurd h (by simp)

theorem stockOf_nonneg_alt {db : DB} {pid : ProductId} {s : Int}
    (hnn : ∀ p ∈ db.products, 0 ≤ p.stock) (hs : stockOf db pid = some s) : 0 ≤ s := by
  unfold stockOf findProduct at hs
  cases hf : db.products.find? (fun p => p.id == pid) with
  | none => rw [hf] at hs; exact absurd hs (by simp)
  | some p =>
    rw [hf] at hs
    simp only [Option.map_some', Option.some.injEq] at hs
    have := hnn p (List.mem_of_find?_eq_some hf)
    omega

theorem processItems_customer (u : UserId) (oid : OrderId) :
    ∀ (items : List (ProductId × Int)) (db : DB),
      isAdmin db u = false →
      (processItems u oid db items).2 = true →
      (processItems u oid db items).1.inventory_logs =
          db.inventory_logs ++ items.map saleEntry ∧
        (∀ pid s, stockOf db pid = some s →
          stockOf (processItems u oid db items).1 pid = some (s - itemsQty items pid)) ∧
        ((∀ p ∈ db.products, 0 ≤ p.stock) →
          ∀ p ∈ (processItems u oid db items).1.products, 0 ≤ p.stock) := by
  intro items
  induction items with
  | nil =>
    intro db _ _
    refine ⟨by simp [processItems], ?_, fun hnn => hnn⟩
    intro pid s hs
    simpa [itemsQty] using hs
  | cons it rest ih =>
    intro db hadm hok
    obtain ⟨pid, q⟩ := it
    cases h1 : insertOrderItem db u ⟨oid, pid, q⟩ with
    | none =>
      simp only [processItems, h1] at hok
      exact absurd hok (by decide)
    | some db1 =>
      obtain ⟨hl1, hst1, hnn1⟩ := insertOrderItem_effects h1
      have hroles1 := (insertOrderItem_frames h1).2.2.1
      have hadm1 : isAdmin db1 u = false := by
        rw [isAdmin_congr u hroles1]
        exact hadm
      cases h2 : stockOf db1 pid with
      | none =>
        simp only [processItems, h1, h2] at hok
        exact absurd hok (by decide)
      | some s =>
        have h3 : updateProductStock db1 u pid (s - q) = some db1 := by
          unfold updateProductStock
          rw [if_neg (by simp [hadm1])]
        have h4 : insertInventoryLog db1 u pid (-q) ChangeType.sale = none := by
          unfold insertInventoryLog canInsertInventoryLog
          rw [if_neg (by simp [hadm1])]
        have htry : tryOp db1 (insertInventoryLog db1 u pid (-q) ChangeType.sale) = db1 := by
          rw [h4]
          rfl
        simp only [processItems, h1, h2, h3, htry] at hok ⊢
        obtain ⟨hlr, hstr, hnnr⟩ := ih db1 hadm1 hok
        refine ⟨?_, ?_, ?_⟩
        · rw [hlr, hl1]
          simp [saleEntry, List.append_assoc]
        · intro pid2 s2 hs2
          have hmid := hst1 pid2 s2 hs2
          have hfin := hstr pid2 _ hmid
          rw [hfin, itemsQty_cons]
          congr 1
          by_cases hpp : pid = pid2
          · subst hpp
            simp
            ring
          · simp [hpp]
        · intro hnn
          exact hnnr (hnn1 hnn)

theorem releaseRows_spec :
    ∀ (rows : List CartItem) (db : DB),
      (∀ c ∈ rows, (stockOf db c.product_id).isSome) →
      (∀ p ∈ db.products, 0 ≤ p.stock) →
      (∀ c ∈ rows, 1 ≤ c.quantity) →
      ∃ db', releaseRows db rows = some db' ∧
        db'.inventory_logs = db.inventory_logs ++ rows.map releasedEntry ∧
        (∀ pid s, stockOf db pid = some s →
          stockOf db' pid = some (s + cartQty rows pid)) := by
  intro rows
  induction rows with
  | nil =>
    intro db _ _ _
    refine ⟨db, rfl, by simp, ?_⟩
    intro pid s hs
    simpa [cartQty] using hs
  | cons c rest ih =>
    intro db hex hnn hq
    obtain ⟨s0, hs0⟩ := Option.isSome_iff_exists.mp (hex c (by simp))
    have hs0nn : 0 ≤ s0 := stockOf_nonneg_alt hnn hs0
    have hq0 : 1 ≤ c.quantity := hq c (by simp)
    have h1 : applyStockDelta db c.product_id c.quantity ChangeType.cart_released
        = some { db with
          products := setStockList db.products c.product_id (s0 + c.quantity),
          inventory_logs := db.inventory_logs
            ++ [⟨c.product_id, c.quantity, ChangeType.cart_released⟩] } := by
      simp only [applyStockDelta, hs0]
      rw [if_neg (by omega)]
    have hst1 := stockOf_after_delta h1
    have hnn1 := nonneg_after_delta h1 hnn
    obtain ⟨db', hrel, hlogs, hst⟩ := ih { db with
        products := setStockList db.products c.product_id (s0 + c.quantity),
        inventory_logs := db.inventory_logs
          ++ [⟨c.product_id, c.quantity, ChangeType.cart_released⟩] }
      (by
        intro c2 hc2
        obtain ⟨s2, hs2⟩ := Option.isSome_iff_exists.mp (hex c2 (by simp [hc2]))
        rw [hst1 c2.product_id s2 hs2]
        rfl)
      hnn1
      (fun c2 hc2 => hq c2 (by simp [hc2]))
    refine ⟨db', ?_, ?_, ?_⟩
    · rw [show releaseRows db (c :: rest) =
        (applyStockDelta db c.product_id c.quantity ChangeType.cart_released).bind
          (fun db1 => releaseRows db1 rest) from rfl]
      rw [h1]
      exact hrel
    · rw [hlogs]
      simp [releasedEntry, List.append_assoc]
    · intro pid s hs
      have hmid := hst1 pid s hs
      have hfin := hst pid _ hmid
      rw [hfin, cartQty_cons]
      congr 1
      by_cases hpp : c.product_id = pid
      · subst hpp
        simp
        ring
      · simp [hpp]

/-- C3 (amended): for every successful checkout by an actor without
the admin role, each line of the snapshot causes exactly one
additional stock decrement equal to its quantity and exactly one sale
log entry with delta -quantity (the trigger's; the client's direct
stock write silently matches no rows under row-level security and its
log insert is rejected), and afterwards the cart is cleared (each
deleted cart row releasing its reservation with a cart_released
entry).  An admin actor instead gets two decrements and two sale
entries per line, refuting the unrestricted claim. -/
theorem checkout_customer_per_line (db : DB) (u : UserId) (items : List (ProductId × Int))
    (hcust : isAdmin db u = false)
    (hok : (handleCheckout db u items).2 = true)
    (hnn : ∀ p ∈ db.products, 0 ≤ p.stock)
    (hcart : ∀ c ∈ db.cart_items, c.user_id = u →
      (stockOf db c.product_id).isSome ∧ 1 ≤ c.quantity) :
    (handleCheckout db u items).1.inventory_logs = db.inventory_logs
        ++ items.map saleEntry
        ++ (db.cart_items.filter (fun c => c.user_id == u)).map releasedEntry ∧
      (handleCheckout db u items).1.cart_items =
        db.cart_items.filter (fun c => !(c.user_id == u)) ∧
      (∀ pid s, stockOf db pid = some s →
        stockOf (handleCheckout db u items).1 pid =
          some (s - itemsQty items pid
            + cartQty (db.cart_items.filter (fun c => c.user_id == u)) pid)) := by
  cases hp : processItems u (freshOrderId db)
      { db with orders := db.orders ++ [⟨freshOrderId db, u⟩] } items with
  | mk db2 ok =>
    cases ok with
    | false =>
      exfalso
      simp only [handleCheckout, insertOrder_self, hp] at hok
      exact absurd hok (by decide)
    | true =>
      have hpc := processItems_customer u (freshOrderId db) items
        { db with orders := db.orders ++ [⟨freshOrderId db, u⟩] } hcust (by rw [hp])
      simp only [hp] at hpc
      obtain ⟨hlogs2, hstock2, hnn2⟩ := hpc
      have hfr := processItems_frames u (freshOrderId db) items
        { db with orders := db.orders ++ [⟨freshOrderId db, u⟩] }
      simp only [hp] at hfr
      obtain ⟨_, _, hroles2, hcart2, _⟩ := hfr
      have hadm2 : isAdmin db2 u = false := by
        rw [isAdmin_congr u hroles2]
        exact hcust
      have hpayins : insertPayment db2 u ⟨freshOrderId db⟩ = none := by
        unfold insertPayment canInsertPayment
        rw [if_neg (by simp [hadm2])]
      obtain ⟨db4, hrel, hlogs4, hstock4⟩ := releaseRows_spec
        (db.cart_items.filter (fun c => c.user_id == u))
        { db2 with cart_items := db.cart_items.filter (fun c => !(c.user_id == u)) }
        (by
          intro c hc
          have hc' := List.mem_filter.mp hc
          obtain ⟨hmem, huser⟩ := hc'
          obtain ⟨hsome, _⟩ := hcart c hmem (by simpa using huser)
          obtain ⟨s, hs⟩ := Option.isSome_iff_exists.mp hsome
          have := hstock2 c.product_id s hs
          rw [show stockOf { db2 with cart_items := db.cart_items.filter (fun c0 =>
            !(c0.user_id == u)) } c.product_id = stockOf db2 c.product_id from rfl]
          rw [this]
          rfl)
        (hnn2 hnn)
        (by
          intro c hc
          have hc' := List.mem_filter.mp hc
          exact (hcart c hc'.1 (by simpa using hc'.2)).2)
      have hclear : clearCart (tryOp db2 (insertPayment db2 u ⟨freshOrderId db⟩)) u = db4 := by
        rw [hpayins]
        show clearCart db2 u = db4
        unfold clearCart deleteUserCart
        rw [hcart2]
        rw [hrel]
        rfl
      have hcart4 := (releaseRows_frames _ _ _ hrel).2.2.2.1
      refine ⟨?_, ?_, ?_⟩
      · simp only [handleCheckout, insertOrder_self, hp, hclear]
        rw [hlogs4]
        rw [show ({ db2 with cart_items := db.cart_items.filter (fun c =>
          !(c.user_id == u)) } : DB).inventory_logs = db2.inventory_logs from rfl]
        rw [hlogs2]
      · simp only [handleCheckout, insertOrder_self, hp, hclear]
        rw [hcart4]
      · intro pid s hs
        simp only [handleCheckout, insertOrder_self, hp, hclear]
        have hmid := hstock2 pid s hs
        have hfin := hstock4 pid (s - itemsQty items pid)
          (by
            rw [show stockOf { db2 with cart_items := db.cart_items.filter (fun c0 =>
              !(c0.user_id == u)) } pid = stockOf db2 pid from rfl]
            exact hmid)
        rw [hfin]

theorem checkout_customer_per_line_witness :
    (handleCheckout dbCustomerCart 3 [(1, 2)]).2 = true ∧
      (handleCheckout dbCustomerCart 3 [(1, 2)]).1.inventory_logs =
        dbCustomerCart.inventory_logs ++ [(1, 2)].map saleEntry
          ++ (dbCustomerCart.cart_items.filter (fun c => c.user_id == 3)).map releasedEntry ∧
      (handleCheckout dbCustomerCart 3 [(1, 2)]).1.cart_items =
        dbCustomerCart.cart_items.filter (fun c => !(c.user_id == 3)) ∧
      (∀ pid s, stockOf dbCustomerCart pid = some s →
        stockOf (handleCheckout dbCustomerCart 3 [(1, 2)]).1 pid =
          some (s - itemsQty [(1, 2)] pid
            + cartQty (dbCustomerCart.cart_items.filter (fun c => c.user_id == 3)) pid)) :=
  ⟨by decide, checkout_customer_per_line dbCustomerCart 3 [(1, 2)]
    (by decide) (by decide) (by decide) (by decide)⟩

/-- C3 counterexample: the same checkout performed by admin 9 over one
cart line of quantity 1 succeeds but records two sale log entries and
decrements the stock twice (the trigger's decrement plus the client's
direct write, which row-level security no longer blocks), refuting the
claim for admin-performed checkouts. -/
theorem checkout_admin_double_sale :
    (handleCheckout dbAdminShopper 9 [(1, 1)]).2 = true ∧
      ((handleCheckout dbAdminShopper 9 [(1, 1)]).1.inventory_logs.filter
        (fun e => e.change_type == ChangeType.sale)).length = 2 ∧
      ¬ ((handleCheckout dbAdminShopper 9 [(1, 1)]).1.inventory_logs.filter
        (fun e => e.change_type == ChangeType.sale)).length = 1 := by
  refine ⟨by decide, by decide, by decide⟩

/-- C10: for a checkout performed by an actor without the admin role,
the payments insert policy rejects the payment record, the result is
never checked, the checkout still reports success, and the payments
table is left exactly as it was, so the created order (which is
present in the final state) has no payment row. -/
theorem checkout_payment_rejected (db : DB) (u : UserId) (items : List (ProductId × Int))
    (hcust : isAdmin db u = false)
    (hok : (handleCheckout db u items).2 = true) :
    insertPayment db u ⟨freshOrderId db⟩ = none ∧
      (handleCheckout db u items).1.payments = db.payments ∧
      (⟨freshOrderId db, u⟩ : Order) ∈ (handleCheckout db u items).1.orders := by
  cases hp : processItems u (freshOrderId db)
      { db with orders := db.orders ++ [⟨freshOrderId db, u⟩] } items with
  | mk db2 ok =>
    cases ok with
    | false =>
      exfalso
      simp only [handleCheckout, insertOrder_self, hp] at hok
      exact absurd hok (by decide)
    | true =>
      have hfr := processItems_frames u (freshOrderId db) items
        { db with orders := db.orders ++ [⟨freshOrderId db, u⟩] }
      simp only [hp] at hfr
      obtain ⟨horders2, hpay2, hroles2, _, _⟩ := hfr
      have hadm2 : isAdmin db2 u = false := by
        rw [isAdmin_congr u hroles2]
        exact hcust
      have hpayins : insertPayment db2 u ⟨freshOrderId db⟩ = none := by
        unfold insertPayment canInsertPayment
        rw [if_neg (by simp [hadm2])]
      have hcc := clearCart_frames (tryOp db2 (insertPayment db2 u ⟨freshOrderId db⟩)) u
      refine ⟨?_, ?_, ?_⟩
      · unfold insertPayment canInsertPayment
        rw [if_neg (by simp [hcust])]
      · simp only [handleCheckout, insertOrder_self, hp]
        rw [hcc.2.1, hpayins]
        show db2.payments = db.payments
        rw [hpay2]
      · simp only [handleCheckout, insertOrder_self, hp]
        rw [hcc.1, hpayins]
        show (⟨freshOrderId db, u⟩ : Order) ∈ db2.orders
        rw [horders2]
        simp

theorem checkout_payment_rejected_witness :
    (handleCheckout dbCustomerCart 3 [(1, 2)]).2 = true ∧
      insertPayment dbCustomerCart 3 ⟨freshOrderId dbCustomerCart⟩ = none ∧
      (handleCheckout dbCustomerCart 3 [(1, 2)]).1.payments = dbCustomerCart.payments ∧
      (⟨1, 3⟩ : Order) ∈ (handleCheckout dbCustomerCart 3 [(1, 2)]).1.orders :=
  ⟨by decide, checkout_payment_rejected dbCustomerCart 3 [(1, 2)] (by decide) (by decide)⟩
